import Mathlib

/-!
Verification of the AT-lab signup pilot.

This file gives a shallow embedding of the slot-label codec (utils.py),
the availability generator (slots.py), and the booking / reschedule /
grading flows (ui_components.py, with the legacy variant in main.py),
and settles the frozen claims about them.

Conventions:
* Python datetimes are naive; we model them as a calendar `Date` plus a
  wall-clock `Time` (proleptic Gregorian, matching Python's datetime).
* Python exceptions (ValueError from strptime / parse_slot_range) are
  modelled by `Option`: `none` where the Python code raises.
* Machine strings are Lean `String`s; the tolerant regular expressions
  of utils.py are realized as an equivalent deterministic matcher over
  the string's character list (the patterns have no essential
  backtracking: every quantified class is followed by a disjoint class,
  and the one optional AM/PM group is tried with explicit fallback).
-/

/-- Wall-clock time of day (the time part of a naive Python datetime). -/
structure Time where
  hour : Nat
  minute : Nat
deriving DecidableEq, Repr

/-- Minutes since midnight. -/
def Time.toMin (t : Time) : Nat := t.hour * 60 + t.minute

/-- Calendar date (proleptic Gregorian, as Python's datetime.date). -/
structure Date where
  year : Nat
  month : Nat
  day : Nat
deriving DecidableEq, Repr

/-- Naive datetime: a date plus a time of day. -/
structure DT where
  date : Date
  time : Time
deriving DecidableEq, Repr

/-- Gregorian leap-year test (Python calendar.isleap). -/
def isLeap (y : Nat) : Bool := (y % 4 == 0 && y % 100 != 0) || y % 400 == 0

/-- Length of a month, as validated by Python's datetime constructor. -/
def daysInMonth (y m : Nat) : Nat :=
  if m = 2 then (if isLeap y then 29 else 28)
  else if m = 4 ∨ m = 6 ∨ m = 9 ∨ m = 11 then 30
  else 31

/-- The dates Python's datetime accepts (MINYEAR 1 to MAXYEAR 9999). -/
def ValidDate (d : Date) : Prop :=
  1 ≤ d.year ∧ d.year ≤ 9999 ∧ 1 ≤ d.month ∧ d.month ≤ 12 ∧
    1 ≤ d.day ∧ d.day ≤ daysInMonth d.year d.month

instance (d : Date) : Decidable (ValidDate d) := by
  unfold ValidDate; infer_instance

/-- Days in the months strictly before month `m` of year `y`. -/
def daysBeforeMonth (y m : Nat) : Nat :=
  (List.range (m - 1)).foldl (fun a i => a + daysInMonth y (i + 1)) 0

/-- Ordinal day within the year, 1-based (Python timetuple().tm_yday). -/
def ordinalDay (d : Date) : Nat := daysBeforeMonth d.year d.month + d.day

/-- Number of leap years in [1, y). -/
def leapsBefore (y : Nat) : Nat := (y - 1) / 4 - (y - 1) / 100 + (y - 1) / 400

/-- Days since 0001-01-01 (Python date.toordinal() minus 1). -/
def dayNumber (d : Date) : Nat := 365 * (d.year - 1) + leapsBefore d.year + ordinalDay d - 1

/-- Python datetime.weekday(): Monday = 0 .. Sunday = 6.
    Day number 0 (0001-01-01) is a Monday. -/
def weekdayOf (d : Date) : Nat := dayNumber d % 7

/-- Total order on naive datetimes via minutes since 0001-01-01. -/
def DT.toMin (x : DT) : Nat := dayNumber x.date * 1440 + x.time.toMin

/-- Number of ISO weeks in year `y` (52, or 53 when Jan 1 is a Thursday,
    or a Wednesday of a leap year). -/
def isoWeeksInYear (y : Nat) : Nat :=
  let w := weekdayOf ⟨y, 1, 1⟩
  if w = 3 ∨ (isLeap y = true ∧ w = 2) then 53 else 52

/-- Python date.isocalendar().week. -/
def isoWeek (d : Date) : Nat :=
  let wd := weekdayOf d + 1
  let wk := (ordinalDay d + 10 - wd) / 7
  if wk = 0 then isoWeeksInYear (d.year - 1)
  else if wk = 53 ∧ isoWeeksInYear d.year = 52 then 1
  else wk

/-- Successor date (Python date + timedelta(days=1)). -/
def nextDay (d : Date) : Date :=
  if d.day < daysInMonth d.year d.month then ⟨d.year, d.month, d.day + 1⟩
  else if d.month < 12 then ⟨d.year, d.month + 1, 1⟩
  else ⟨d.year + 1, 1, 1⟩

/-- Python date + timedelta(days=n). -/
def addDays (d : Date) : Nat → Date
  | 0 => d
  | n + 1 => nextDay (addDays d n)

/-! ## Character utilities (the regex character classes of utils.py) -/

/-- Python regex \s (the ASCII part; labels never contain other whitespace). -/
def isWsChar (c : Char) : Bool :=
  c == ' ' || c == '\t' || c == '\n' || c == '\r' || c == Char.ofNat 11 || c == Char.ofNat 12

/-- Python regex \d. -/
def isDigitChar (c : Char) : Bool := '0' ≤ c && c ≤ '9'

/-- Python regex [A-Za-z]. -/
def isAlphaChar (c : Char) : Bool := ('A' ≤ c && c ≤ 'Z') || ('a' ≤ c && c ≤ 'z')

/-- Drop a maximal run of whitespace (regex \s*). -/
def dropWs : List Char → List Char
  | c :: cs => if isWsChar c then dropWs cs else c :: cs
  | [] => []

/-- Split off a maximal run of letters (greedy [A-Za-z]+ prefix). -/
def splitAlpha : List Char → List Char × List Char
  | c :: cs =>
    if isAlphaChar c then
      let p := splitAlpha cs
      (c :: p.1, p.2)
    else ([], c :: cs)
  | [] => ([], [])

/-- Split off a maximal run of digits (greedy \d+ prefix). -/
def splitDigits : List Char → List Char × List Char
  | c :: cs =>
    if isDigitChar c then
      let p := splitDigits cs
      (c :: p.1, p.2)
    else ([], c :: cs)
  | [] => ([], [])

def digitVal (c : Char) : Nat := c.toNat - 48

/-- Numeric value of a digit string. -/
def natOfDigits (ds : List Char) : Nat := ds.foldl (fun a c => a * 10 + digitVal c) 0

/-! ## The tolerant slot-label matcher (utils.py _SLOT_RE and _SLOT_RE_BOTH_AMPM)

The two patterns share the prefix
  ^\s* (?P<day>[A-Za-z]{3,9}) \s+ (?P<date>\d{1,2}/\d{1,2}/\d{2,4}) \s+ (?P<start>\d{1,2}:\d{2})
and differ only after the start time.  Since every bounded class is
followed by a character from a disjoint class, matching is equivalent to
taking maximal runs and checking their lengths; the only optionality
(the AM/PM groups) is handled with an explicit fallback, mirroring the
regex engine's backtracking. -/

/-- AM or PM marker. -/
inductive Meridiem
  | am
  | pm
deriving DecidableEq, Repr

/-- Regex \s+ : at least one whitespace character, then any more. -/
def reqWs : List Char → Option (List Char)
  | c :: cs => if isWsChar c then some (dropWs cs) else none
  | [] => none

/-- Maximal digit run whose length must lie in [lo, hi]; returns its value,
    its length and the rest. -/
def digitsRun (lo hi : Nat) (cs : List Char) : Option (Nat × Nat × List Char) :=
  let p := splitDigits cs
  if lo ≤ p.1.length ∧ p.1.length ≤ hi then some (natOfDigits p.1, p.1.length, p.2) else none

def expectChar (c : Char) : List Char → Option (List Char)
  | x :: xs => if x = c then some xs else none
  | [] => none

/-- A time token \d{1,2}:\d{2}; returns (hour digits value, minute digits value, rest). -/
def timeTok (cs : List Char) : Option (Nat × Nat × List Char) :=
  match digitsRun 1 2 cs with
  | none => none
  | some (h, _, r1) =>
    match expectChar ':' r1 with
    | none => none
    | some r2 =>
      match digitsRun 2 2 r2 with
      | none => none
      | some (m, _, r3) => some (h, m, r3)

/-- The separator \s*(?:–|—|-|to)\s* . -/
def sepTok (cs : List Char) : Option (List Char) :=
  match dropWs cs with
  | '–' :: r => some (dropWs r)
  | '—' :: r => some (dropWs r)
  | '-' :: r => some (dropWs r)
  | 't' :: 'o' :: r => some (dropWs r)
  | _ => none

/-- The AM/PM group (?:AM|PM|am|pm) — case-sensitive alternatives, exactly
    as written in the patterns. -/
def ampmTok : List Char → Option (Meridiem × List Char)
  | 'A' :: 'M' :: r => some (Meridiem.am, r)
  | 'a' :: 'm' :: r => some (Meridiem.am, r)
  | 'P' :: 'M' :: r => some (Meridiem.pm, r)
  | 'p' :: 'm' :: r => some (Meridiem.pm, r)
  | _ => none

def allWs (cs : List Char) : Bool := cs.all isWsChar

/-- Capture groups of a successful match, after normalization:
    the weekday word is matched but ignored (as in utils.py), the date is
    kept as (month value, day value, year value, year digit count), and
    `_normalize_ampm` has been applied (the alternatives only ever produce
    AM or PM, so it never yields None on a match). -/
structure Capture where
  month : Nat
  mday : Nat
  yearRaw : Nat
  yearLen : Nat
  startH : Nat
  startM : Nat
  endH : Nat
  endM : Nat
  ampmStart : Option Meridiem
  ampmEnd : Option Meridiem
deriving DecidableEq, Repr

/-- The shared pattern prefix: ^\s* weekday \s+ month/day/year \s+ start-time.
    Returns (month, mday, yearRaw, yearLen, startH, startM, rest). -/
def matchLead (cs : List Char) : Option (Nat × Nat × Nat × Nat × Nat × Nat × List Char) :=
  let p := splitAlpha (dropWs cs)
  if 3 ≤ p.1.length ∧ p.1.length ≤ 9 then
    match reqWs p.2 with
    | none => none
    | some r1 =>
      match digitsRun 1 2 r1 with
      | none => none
      | some (mo, _, r2) =>
        match expectChar '/' r2 with
        | none => none
        | some r3 =>
          match digitsRun 1 2 r3 with
          | none => none
          | some (dy, _, r4) =>
            match expectChar '/' r4 with
            | none => none
            | some r5 =>
              match digitsRun 2 4 r5 with
              | none => none
              | some (yr, yl, r6) =>
                match reqWs r6 with
                | none => none
                | some r7 =>
                  match timeTok r7 with
                  | none => none
                  | some (sh, sm, r8) => some (mo, dy, yr, yl, sh, sm, r8)
  else none

/-- Tail of _SLOT_RE after the start time:
    separator, end time, optional trailing AM/PM, then \s*$ . -/
def tailOne (cs : List Char) : Option (Nat × Nat × Option Meridiem) :=
  match sepTok cs with
  | none => none
  | some r1 =>
    match timeTok r1 with
    | none => none
    | some (eh, em, r2) =>
      match ampmTok (dropWs r2) with
      | some (mer, r3) =>
        if allWs r3 then some (eh, em, some mer)
        else if allWs r2 then some (eh, em, none)
        else none
      | none => if allWs r2 then some (eh, em, none) else none

/-- Tail of _SLOT_RE_BOTH_AMPM after the start time: optional AM/PM on the
    start, separator, end time, optional AM/PM on the end, then \s*$ .
    If consuming a start marker makes the rest fail, the engine backtracks
    to the empty alternative of the optional group. -/
def tailBoth (cs : List Char) : Option (Option Meridiem × Nat × Nat × Option Meridiem) :=
  match ampmTok (dropWs cs) with
  | some (mer, r) =>
    (match tailOne r with
     | some (eh, em, merE) => some (some mer, eh, em, merE)
     | none =>
       match tailOne cs with
       | some (eh, em, merE) => some (none, eh, em, merE)
       | none => none)
  | none =>
    match tailOne cs with
    | some (eh, em, merE) => some (none, eh, em, merE)
    | none => none

/-- Matching in parse_slot_range: first _SLOT_RE (whose single trailing
    marker is applied to both times: ampm_start = ampm_end = ampm), then
    _SLOT_RE_BOTH_AMPM. -/
def matchSlot (s : String) : Option Capture :=
  match matchLead s.data with
  | none => none
  | some (mo, dy, yr, yl, sh, sm, rest) =>
    match tailOne rest with
    | some (eh, em, mer) =>
      some ⟨mo, dy, yr, yl, sh, sm, eh, em, mer, mer⟩
    | none =>
      match tailBoth rest with
      | some (merS, eh, em, merE) => some ⟨mo, dy, yr, yl, sh, sm, eh, em, merS, merE⟩
      | none => none

/-! ## Time and date resolution (parse_slot_range candidate formats) -/

/-- strptime %I:%M %p : hour must be 1..12, minutes ≤ 59;
    12 AM is midnight, 12 PM is noon. -/
def resolveMer (h m : Nat) (mer : Meridiem) : Option Time :=
  if 1 ≤ h ∧ h ≤ 12 ∧ m ≤ 59 then
    some ⟨(match mer with
           | Meridiem.am => if h = 12 then 0 else h
           | Meridiem.pm => if h = 12 then 12 else h + 12), m⟩
  else none

/-- No marker: parse_slot_range first tries %I:%M (12-hour clock with no
    %p, which CPython treats as AM, mapping 12 to hour 0), then %H:%M. -/
def resolveNoMer (h m : Nat) : Option Time :=
  if 1 ≤ h ∧ h ≤ 12 ∧ m ≤ 59 then some ⟨if h = 12 then 0 else h, m⟩
  else if h ≤ 23 ∧ m ≤ 59 then some ⟨h, m⟩
  else none

/-- Resolution of one captured time against the candidate format list. -/
def resolveTime (h m : Nat) : Option Meridiem → Option Time
  | some mer => resolveMer h m mer
  | none => resolveNoMer h m

/-- Year resolution in _parse_date: a 2-digit year goes through %y
    (POSIX window 00-68 → 2000s, 69-99 → 1900s); a 4-digit year through
    %Y (whose pattern is exactly four digits); a 3-digit year matches the
    slot regex but fails both date formats. Year 0 fails datetime's
    MINYEAR check. -/
def resolveYear (raw len : Nat) : Option Nat :=
  if len = 2 then some (if raw ≤ 68 then 2000 + raw else 1900 + raw)
  else if len = 4 then (if 1 ≤ raw then some raw else none)
  else none

/-- utils.parse_slot_range: match, resolve the date, resolve both times,
    then the day-crossing heuristic: if the end precedes the start, the
    end's hour is replaced by (hour + 12) % 24. Returns the
    (start, end) naive datetimes; `none` where the Python code raises
    ValueError. -/
def parseSlotRange (s : String) : Option (DT × DT) :=
  match matchSlot s with
  | none => none
  | some c =>
    match resolveYear c.yearRaw c.yearLen with
    | none => none
    | some y =>
      let d : Date := ⟨y, c.month, c.mday⟩
      if ValidDate d then
        match resolveTime c.startH c.startM c.ampmStart, resolveTime c.endH c.endM c.ampmEnd with
        | some st, some en =>
          let en2 := if en.toMin < st.toMin then (⟨(en.hour + 12) % 24, en.minute⟩ : Time) else en
          some (⟨d, st⟩, ⟨d, en2⟩)
        | _, _ => none
      else none

/-- utils.parse_slot_time: the start datetime of a slot string. -/
def parseSlotTime (s : String) : Option DT := (parseSlotRange s).map Prod.fst

/-- utils.slot_week: ISO week number of a slot's start. -/
def slotWeek (s : String) : Option Nat := (parseSlotTime s).map fun x => isoWeek x.date

/-- utils.slot_date: calendar date of a slot's start. -/
def slotDateOf (s : String) : Option Date := (parseSlotTime s).map fun x => x.date

/-! ## Slot-label generation (slots.py) -/

/-- Python %A weekday names, indexed by datetime.weekday() (Monday = 0). -/
def weekdayName : Nat → String
  | 0 => "Monday"
  | 1 => "Tuesday"
  | 2 => "Wednesday"
  | 3 => "Thursday"
  | 4 => "Friday"
  | 5 => "Saturday"
  | _ => "Sunday"

def digitChar (n : Nat) : Char := Char.ofNat (48 + n)

/-- Two-digit zero-padded decimal rendering (for values below 100). -/
def pad2 (n : Nat) : List Char := [digitChar (n / 10 % 10), digitChar (n % 10)]

/-- The hour shown by strftime %I (12-hour clock, 12 for 0 and 12). -/
def hour12 (h : Nat) : Nat := if h % 12 = 0 then 12 else h % 12

/-- strftime("%I:%M").lstrip("0"): the %I field loses its single leading
    zero for hours below 10 (the minute field keeps its padding). -/
def timeText (t : Time) : List Char :=
  (if hour12 t.hour < 10 then [digitChar (hour12 t.hour)] else pad2 (hour12 t.hour)) ++
    ':' :: pad2 t.minute

/-- strftime %p of an hour. -/
def ampmChars (h : Nat) : List Char := if h < 12 then ['A', 'M'] else ['P', 'M']

/-- strftime("%A %m/%d/%y") of a date — the weekday word, then
    zero-padded month, day and two-digit year. -/
def dayKeyChars (d : Date) : List Char :=
  (weekdayName (weekdayOf d)).data ++
    ' ' :: pad2 d.month ++ '/' :: pad2 d.day ++ '/' :: pad2 (d.year % 100)

/-- Day key "%A %m/%d/%y" used by generate_slots. -/
def dayKey (d : Date) : String := String.mk (dayKeyChars d)

/-- slots.generate_slot_label(day, start, end):
    "Weekday mm/dd/yy h:MM–h:MM AM" — the meridiem marker appears once,
    taken from the end time, separated by the en dash. -/
def generateSlotLabel (day : Date) (s e : Time) : String :=
  String.mk (dayKeyChars day ++ ' ' :: timeText s ++ '–' :: timeText e ++ ' ' :: ampmChars e.hour)

/-- The slot loop of _build_day_slots in minutes since midnight:
    while cur < end: nxt := cur + step; stop if nxt > end (no short tail),
    else emit [cur, nxt) and continue from nxt. The loop advances by at
    least one minute per emitted slot, so end - cur steps of fuel always
    suffice; the fuel only makes the recursion structural.
    (With step = 0 the Python loop would not terminate; the claims about
    the generator therefore assume a positive slot length, and this
    function returns [] in that vacuous case.) -/
def dayIntervalsGo : Nat → Nat → Nat → Nat → List (Nat × Nat)
  | 0, _, _, _ => []
  | fuel + 1, cur, endM, step =>
    if 0 < step ∧ cur < endM then
      if cur + step > endM then []
      else (cur, cur + step) :: dayIntervalsGo fuel (cur + step) endM step
    else []

def dayIntervals (cur endM step : Nat) : List (Nat × Nat) :=
  dayIntervalsGo (endM - cur) cur endM step

/-- Time of day from minutes since midnight. -/
def timeOfMin (n : Nat) : Time := ⟨n / 60, n % 60⟩

/-- Weekday-indexed operating-hours table. The Python dicts map a weekday
    to a pair of "HH:MM" strings fed through strptime("%H:%M"); we carry
    the parsed times directly. -/
def lookupHours (w : Nat) : List (Nat × Time × Time) → Option (Time × Time)
  | [] => none
  | (k, v) :: rest => if k = w then some v else lookupHours w rest

/-- slots._build_day_slots: all slot labels for one day, or [] when the
    weekday is absent from the hours table. -/
def buildDaySlots (day : Date) (hours : List (Nat × Time × Time)) (step : Nat) : List String :=
  match lookupHours (weekdayOf day) hours with
  | none => []
  | some (st, en) =>
    (dayIntervals st.toMin en.toMin step).map fun p =>
      generateSlotLabel day (timeOfMin p.1) (timeOfMin p.2)

/-- Python's string comparison: lexicographic by code point, a strict
    prefix ordering before its extensions. -/
def listCharLt : List Char → List Char → Bool
  | [], [] => false
  | [], _ :: _ => true
  | _ :: _, [] => false
  | a :: as, b :: bs =>
    if a.toNat < b.toNat then true
    else if b.toNat < a.toNat then false
    else listCharLt as bs

def strLt (a b : String) : Bool := listCharLt a.data b.data

/-- Python's sorted() on strings: ascending lexicographic order by code
    point (insertion sort; slot labels within a day are distinct, so
    stability is irrelevant). -/
def insertStr (x : String) : List String → List String
  | [] => [x]
  | y :: ys => if strLt x y then x :: y :: ys else y :: insertStr x ys

def pySorted (l : List String) : List String := l.foldr insertStr []

/-- The per-campus loop body of slots.generate_slots: for each day of the
    horizon, build the day's slots and, when non-empty, store them under
    the "%A %m/%d/%y" key — wrapped in sorted(), exactly as in the source. -/
def generateSlotsFor (hours : List (Nat × Time × Time)) (today : Date)
    (horizonDays slotMinutes : Nat) : List (String × List String) :=
  (List.range horizonDays).foldl
    (fun acc i =>
      let day := addDays today i
      let slots := buildDaySlots day hours slotMinutes
      if slots = [] then acc else acc ++ [(dayKey day, pySorted slots)])
    []

/-- SLO operating hours from slots.generate_slots (weekday ↦ (open, close),
    parsed from the "HH:MM" strings; Sunday closed). -/
def sloHours : List (Nat × Time × Time) :=
  [(0, ⟨9, 0⟩, ⟨21, 0⟩), (1, ⟨9, 0⟩, ⟨21, 0⟩), (2, ⟨8, 30⟩, ⟨21, 0⟩),
   (3, ⟨8, 15⟩, ⟨20, 30⟩), (4, ⟨9, 15⟩, ⟨15, 0⟩), (5, ⟨9, 15⟩, ⟨13, 0⟩)]

/-- NCC operating hours from slots.generate_slots (Saturday and Sunday closed). -/
def nccHours : List (Nat × Time × Time) :=
  [(0, ⟨12, 0⟩, ⟨16, 0⟩), (1, ⟨8, 15⟩, ⟨20, 0⟩), (2, ⟨8, 15⟩, ⟨17, 0⟩),
   (3, ⟨9, 15⟩, ⟨17, 0⟩), (4, ⟨8, 15⟩, ⟨15, 0⟩)]

/-- slots.generate_slots(horizon_days, slot_minutes): the two per-campus
    day-keyed availability mappings, starting from "today". -/
def generateSlots (today : Date) (horizonDays slotMinutes : Nat) :
    List (String × List String) × List (String × List String) :=
  (generateSlotsFor sloHours today horizonDays slotMinutes,
   generateSlotsFor nccHours today horizonDays slotMinutes)

/-! ## Booking ledger and the signup / reschedule / grading flows
    (ui_components.py; the legacy variant of main.py follows below).

Records carry the canonical REQUIRED_COLS schema. Timestamps
(_now_iso()) are opaque strings supplied by the caller, and the
str(uuid4()) nonce of a request is likewise a parameter: the flows below
are the pure read-decide-write cores of the Streamlit handlers, with the
UI widgets, the store round-trips (load/append/overwrite) and the
best-effort e-mail left at the boundary. -/

structure Rec where
  name : String
  email : String
  studentId : String
  dsps : Bool
  slot : String
  labLocation : String
  examNumber : String
  grade : String
  gradedBy : String
  groupId : String
  status : String
  createdAt : String
  updatedAt : String
deriving DecidableEq, Repr

/-- ui_components._active: status "booked" or blank counts as active
    (missing/NaN statuses are normalized to defaults by _ensure_columns). -/
def isActive (r : Rec) : Bool := r.status == "booked" || r.status == ""

def activeRecs (bs : List Rec) : List Rec := bs.filter isActive

/-- The active bookings of one student for one exam
    (ui_components.show_student_signup, student_bookings). -/
def studentActive (bs : List Rec) (email exam : String) : List Rec :=
  (activeRecs bs).filter fun r => r.email == email && r.examNumber == exam

/-- Slot strings occupied by active bookings
    (set(active_df["slot"].values)). -/
def activeSlotsOf (bs : List Rec) : List String := (activeRecs bs).map Rec.slot

/-- Status flip applied by every cancellation site
    (status := "canceled", updated_at := now). -/
def cancelMark (r : Rec) (now : String) : Rec :=
  { r with status := "canceled", updatedAt := now }

/-- List.mapM specialised to Option, written out for easy reasoning —
    a `none` anywhere models a raised exception aborting the handler. -/
def omap (f : α → Option β) : List α → Option (List β)
  | [] => some []
  | x :: xs =>
    match f x, omap f xs with
    | some y, some ys => some (y :: ys)
    | _, _ => none

/-- The week-targeted cancellation step of show_student_signup (lines
    216-232): if any same-week row carries a non-empty group_id, every
    row of the table whose group_id equals one of those ids is canceled;
    otherwise the mask cancels the student's active same-week rows for
    that exam — re-parsing every row's slot, so an unparseable slot
    anywhere aborts the handler before any write. -/
def cancelSameWeek (bs : List Rec) (email exam : String) (targetWeek : Nat)
    (sameWeek : List Rec) (now : String) : Option (List Rec) :=
  if sameWeek.any (fun r => r.groupId != "") then
    some (bs.map fun r =>
      if r.groupId ≠ "" ∧ sameWeek.any (fun x => x.groupId == r.groupId) then cancelMark r now
      else r)
  else
    omap (fun r =>
      match slotWeek r.slot with
      | none => none
      | some w =>
        some (if r.email = email ∧ r.examNumber = exam ∧ w = targetWeek ∧ isActive r then
                cancelMark r now
              else r)) bs

/-- A row as appended by show_student_signup (grade and graded_by blank,
    status "booked", created_at = updated_at). -/
def newRec (name email sid : String) (dsps : Bool) (slot lab exam gid createdAt : String) : Rec :=
  ⟨name, email, sid, dsps, slot, lab, exam, "", "", gid, "booked", createdAt, createdAt⟩

inductive SignupOutcome
  | rejectedSameDay
  | booked
deriving DecidableEq, Repr

/-- The append step: two rows sharing the fresh gid for a DSPS pair, one
    row (whose group_id is also the fresh str(uuid4())) otherwise. A DSPS
    submission without a pair fails the button guard and does nothing. -/
def appendNew (bs2 : List Rec) (name email sid : String) (dsps : Bool)
    (exam lab slot1 : String) (slot2? : Option String) (now gid : String) :
    Option (SignupOutcome × List Rec) :=
  match dsps, slot2? with
  | true, some s2 =>
    some (SignupOutcome.booked,
      bs2 ++ [newRec name email sid true slot1 lab exam gid now,
              newRec name email sid true s2 lab exam gid now])
  | true, none => none
  | false, _ =>
    some (SignupOutcome.booked, bs2 ++ [newRec name email sid false slot1 lab exam gid now])

/-- The submit handler of ui_components.show_student_signup (lines
    186-283): compute the target week from the first selected slot,
    collect the student's active weeks for that exam, and if the target
    week is among them, first reject when any same-week active slot falls
    on today (same-day lock, nothing written), else cancel the same-week
    rows; finally append the new row(s). -/
def uiConfirmBooking (bs : List Rec) (name email sid : String) (dsps : Bool)
    (exam lab slot1 : String) (slot2? : Option String)
    (today : Date) (now gid : String) : Option (SignupOutcome × List Rec) :=
  match parseSlotTime slot1 with
  | none => none
  | some t =>
    let targetWeek := isoWeek t.date
    let sb := studentActive bs email exam
    match omap (fun r => slotWeek r.slot) sb with
    | none => none
    | some weeks =>
      if targetWeek ∈ weeks then
        let sameWeek := sb.filter fun r => slotWeek r.slot == some targetWeek
        if sameWeek.any (fun r => slotDateOf r.slot == some today) then
          some (SignupOutcome.rejectedSameDay, bs)
        else
          match cancelSameWeek bs email exam targetWeek sameWeek now with
          | none => none
          | some bs2 => appendNew bs2 name email sid dsps exam lab slot1 slot2? now gid
      else appendNew bs name email sid dsps exam lab slot1 slot2? now gid

/-- PACIFIC.localize(parse_slot_time(s)) > now — strict future check of a
    slot's start against the current Pacific time (both are wall-clock
    values in the same zone; an unparseable slot would raise, which the
    availability comprehension never hits on generator output). -/
def futureB (now : DT) (s : String) : Bool :=
  match parseSlotTime s with
  | some d => decide (now.toMin < d.toMin)
  | none => false

/-- DSPS availability pairs (show_student_signup lines 161-170): the
    consecutive index pairs of the day's slot list whose two labels are
    both unbooked and both strictly in the future. -/
def dspsAvailablePairs (daySlots : List String) (occupied : List String) (now : DT) :
    List (String × String) :=
  (List.range (daySlots.length - 1)).filterMap fun i =>
    match daySlots[i]?, daySlots[i + 1]? with
    | some s1, some s2 =>
      if s1 ∉ occupied ∧ s2 ∉ occupied ∧ futureB now s1 ∧ futureB now s2 then some (s1, s2)
      else none
    | _, _ => none

/-- The DSPS booking path end to end: the student picks one of the
    computed available pairs (the selectbox offers nothing else) and the
    submit handler runs on it. -/
def uiDspsSignup (bs : List Rec) (name email sid exam lab : String)
    (daySlots : List String) (now : DT) (today : Date) (nowStr gid : String)
    (idx : Nat) : Option (SignupOutcome × List Rec) :=
  match (dspsAvailablePairs daySlots (activeSlotsOf bs) now)[idx]? with
  | none => none
  | some (s1, s2) =>
    uiConfirmBooking bs name email sid true exam lab s1 (some s2) today nowStr gid

/-- Admin DSPS reschedule (show_admin_view lines 410-445): cancel every
    row of the selected group by status flip, then append the two new
    slots re-using the same group_id, with student fields taken from the
    group's first row and a fresh created_at timestamp. -/
def adminRescheduleDsps (bs : List Rec) (gid : String) (s1 s2 : String) (now : String) :
    Option (List Rec) :=
  match (bs.filter fun r => r.groupId == gid).head? with
  | none => none
  | some g0 =>
    let canceled := bs.map fun r => if r.groupId = gid then cancelMark r now else r
    some (canceled ++
      [newRec g0.name g0.email g0.studentId true s1 g0.labLocation g0.examNumber gid now,
       newRec g0.name g0.email g0.studentId true s2 g0.labLocation g0.examNumber gid now])

/-- Admin single reschedule (show_admin_view lines 463-488): cancel the
    selected row by status flip and append a fresh row for the new slot —
    carrying the old grade fields, group_id cleared, created_at fresh. -/
def adminRescheduleSingle (bs : List Rec) (idx : Nat) (newSlot : String) (now : String) :
    Option (List Rec) :=
  match bs[idx]? with
  | none => none
  | some old =>
    some (bs.set idx (cancelMark old now) ++
      [{ name := old.name, email := old.email, studentId := old.studentId, dsps := false,
         slot := newSlot, labLocation := old.labLocation, examNumber := old.examNumber,
         grade := old.grade, gradedBy := old.gradedBy, groupId := "", status := "booked",
         createdAt := now, updatedAt := now }])

/-- Grade entry (show_admin_view lines 519-542): locate the first active
    row matching the selected student's email and slot and update exactly
    its grade, graded_by and updated_at fields (idx = idxs[0] in the
    source); no match is the st.error path, which writes nothing. -/
def updateGradeGo (email slot grade gradedBy now : String) : List Rec → Option (List Rec)
  | [] => none
  | r :: rs =>
    if r.email == email && r.slot == slot && isActive r then
      some ({ r with grade := grade, gradedBy := gradedBy, updatedAt := now } :: rs)
    else
      (updateGradeGo email slot grade gradedBy now rs).map (r :: ·)

def updateGrade (bs : List Rec) (email slot grade gradedBy now : String) : Option (List Rec) :=
  updateGradeGo email slot grade gradedBy now bs

/-! ## The legacy confirm flow of main.py (lines 206-291)

main.py has no status column: its reschedule physically drops the old
rows from the table. Dates are read with the positional
slot.split(" ")[1] and strptime("%m/%d/%y"). -/

structure RecL where
  name : String
  email : String
  studentId : String
  dsps : Bool
  slot : String
  labLocation : String
deriving DecidableEq, Repr

/-- Python str.split(" "): fields between single-space separators
    (consecutive separators yield empty fields). -/
def splitOnSpace : List Char → List (List Char)
  | [] => [[]]
  | c :: cs =>
    match splitOnSpace cs with
    | [] => [[]]
    | t :: ts => if c = ' ' then [] :: t :: ts else (c :: t) :: ts

/-- Python str.split(" and "): leftmost non-overlapping occurrences of
    the five-character separator. -/
def splitOnAnd : List Char → List (List Char)
  | ' ' :: 'a' :: 'n' :: 'd' :: ' ' :: rest => [] :: splitOnAnd rest
  | c :: rest =>
    match splitOnAnd rest with
    | [] => [[c]]
    | t :: ts => (c :: t) :: ts
  | [] => [[]]

/-- Python s.split(" ")[1] — the second (possibly empty) space-separated
    field; IndexError (= none) when there is no second field. -/
def secondTok (s : String) : Option (List Char) :=
  match splitOnSpace s.data with
  | _ :: t :: _ => some t
  | _ => none

/-- strptime(tok, "%m/%d/%y") on a whole token: one-or-two-digit month
    and day, exactly two-digit year with the POSIX window, nothing left
    over, and the values must form a real date. -/
def parseDateTok (s : List Char) : Option Date :=
  match digitsRun 1 2 s with
  | none => none
  | some (mo, _, r1) =>
    match expectChar '/' r1 with
    | none => none
    | some r2 =>
      match digitsRun 1 2 r2 with
      | none => none
      | some (dy, _, r3) =>
        match expectChar '/' r3 with
        | none => none
        | some r4 =>
          match digitsRun 2 2 r4 with
          | none => none
          | some (yr, _, r5) =>
            if r5 = [] then
              let d : Date := ⟨if yr ≤ 68 then 2000 + yr else 1900 + yr, mo, dy⟩
              if ValidDate d then some d else none
            else none

/-- The slot date as main.py reads it. -/
def recDate (r : RecL) : Option Date := (secondTok r.slot).bind parseDateTok

/-- One pass of main.py's same-week scan over the student's rows:
    blocked when some existing row falls on today, in the selected week,
    while the new slot is on another day; otherwise the same-week rows
    not on today are dropped from the table. -/
def mainDrop (email : String) (selWeek : Nat) (today : Date) : List RecL → Option (List RecL)
  | [] => some []
  | r :: rs =>
    match mainDrop email selWeek today rs with
    | none => none
    | some tl =>
      if r.email == email then
        match recDate r with
        | none => none
        | some d => if isoWeek d = selWeek ∧ d ≠ today then some tl else some (r :: tl)
      else some (r :: tl)

def mainPass (bs : List RecL) (email : String) (selWeek : Nat) (selDate today : Date) :
    Option (Bool × List RecL) :=
  match omap recDate (bs.filter fun r => r.email == email) with
  | none => none
  | some ds =>
    if ds.any (fun d => d = today ∧ isoWeek d = selWeek ∧ selDate ≠ today) then some (true, bs)
    else
      match mainDrop email selWeek today bs with
      | none => none
      | some bs2 => some (false, bs2)

inductive MainOutcome
  | blocked
  | booked
deriving DecidableEq, Repr

/-- The Confirm handler of main.py: week scan and drop when the selected
    week is already booked, the DSPS block repeating the scan on the
    updated table, then the append(s) — rows have no status, group or
    timestamp columns, and the dropped rows are gone from the table. -/
def mainConfirmBooking (bs : List RecL) (name email sid : String) (dsps : Bool)
    (lab sel : String) (today : Date) : Option (MainOutcome × List RecL) :=
  match (secondTok sel).bind parseDateTok with
  | none => none
  | some selDate =>
    let selWeek := isoWeek selDate
    match omap recDate (bs.filter fun r => r.email == email) with
    | none => none
    | some ds =>
      let step1 : Option (Bool × List RecL) :=
        if selWeek ∈ ds.map isoWeek then mainPass bs email selWeek selDate today
        else some (false, bs)
      match step1 with
      | none => none
      | some (true, _) => some (MainOutcome.blocked, bs)
      | some (false, bs2) =>
        let parts := splitOnAnd sel.data
        if dsps ∧ 2 ≤ parts.length then
          match mainPass bs2 email selWeek selDate today with
          | none => none
          | some (true, _) => some (MainOutcome.blocked, bs2)
          | some (false, bs3) =>
            some (MainOutcome.booked,
              bs3 ++ parts.map fun cs => RecL.mk name email sid dsps (String.mk cs) lab)
        else some (MainOutcome.booked, bs2 ++ [RecL.mk name email sid dsps sel lab])

/-! ## Derived notions used by the claim statements -/

/-- The meridiem of an hour of day (the value strftime %p prints). -/
def merOf (h : Nat) : Meridiem := if h < 12 then Meridiem.am else Meridiem.pm

/-- Frame of the non-destructive mutations: the output table keeps every
    input record at its position, either untouched or with exactly the
    cancellation status flip applied; it may only grow. -/
def FrameOk (inp out : List Rec) (now : String) : Prop :=
  inp.length ≤ out.length ∧
    ∀ (i : Nat) (r : Rec), inp[i]? = some r → out[i]? = some r ∨ out[i]? = some (cancelMark r now)

/-! ## Generic lemmas about the Option-mapped traversal -/

theorem omap_length {α β : Type} (f : α → Option β) :
    ∀ l ws, omap f l = some ws → ws.length = l.length := by
  intro l
  induction l with
  | nil => intro ws h; simp [omap] at h; simp [← h]
  | cons x xs ih =>
    intro ws h
    simp only [omap] at h
    cases hx : f x with
    | none => rw [hx] at h; simp at h
    | some y =>
      rw [hx] at h
      cases hxs : omap f xs with
      | none => rw [hxs] at h; simp at h
      | some ys =>
        rw [hxs] at h
        simp at h
        simp [← h, ih ys hxs]

theorem omap_get {α β : Type} (f : α → Option β) :
    ∀ l ws, omap f l = some ws →
      ∀ (i : Nat) (x : α), l[i]? = some x → ∃ y, ws[i]? = some y ∧ f x = some y := by
  intro l
  induction l with
  | nil => intro ws _ i x hx; simp at hx
  | cons a as ih =>
    intro ws h i x hx
    simp only [omap] at h
    cases ha : f a with
    | none => rw [ha] at h; simp at h
    | some y =>
      rw [ha] at h
      cases has : omap f as with
      | none => rw [has] at h; simp at h
      | some ys =>
        rw [has] at h
        simp at h
        cases i with
        | zero =>
          simp at hx
          exact ⟨y, by simp [← h], by rw [← hx]; exact ha⟩
        | succ n =>
          simp at hx
          obtain ⟨z, hz, hfz⟩ := ih ys has n x hx
          exact ⟨z, by simp [← h, hz], hfz⟩

theorem omap_mem {α β : Type} (f : α → Option β) :
    ∀ l ws, omap f l = some ws → ∀ w, (w ∈ ws ↔ ∃ x ∈ l, f x = some w) := by
  intro l
  induction l with
  | nil => intro ws h w; simp [omap] at h; subst h; simp
  | cons a as ih =>
    intro ws h w
    simp only [omap] at h
    cases ha : f a with
    | none => rw [ha] at h; simp at h
    | some y =>
      rw [ha] at h
      cases has : omap f as with
      | none => rw [has] at h; simp at h
      | some ys =>
        rw [has] at h
        simp at h
        subst h
        simp [ih ys has w]
        constructor
        · rintro (rfl | hw)
          · exact Or.inl ha
          · exact Or.inr hw
        · rintro (hfa | hw)
          · left; rw [hfa] at ha; exact Option.some_inj.mp ha
          · exact Or.inr hw

/-! ## C3: the slot loop of the availability generator -/

theorem dayIntervalsGo_get {step : Nat} :
    ∀ (fuel i cur endM a b : Nat), (dayIntervalsGo fuel cur endM step)[i]? = some (a, b) →
      a = cur + i * step ∧ b = a + step ∧ b ≤ endM := by
  intro fuel
  induction fuel with
  | zero => intro i cur endM a b h; simp [dayIntervalsGo] at h
  | succ f ih =>
    intro i cur endM a b h
    rw [dayIntervalsGo] at h
    by_cases h1 : 0 < step ∧ cur < endM
    · rw [if_pos h1] at h
      by_cases h2 : cur + step > endM
      · rw [if_pos h2] at h; simp at h
      · rw [if_neg h2] at h
        cases i with
        | zero => simp at h; omega
        | succ n =>
          simp at h
          have := ih n (cur + step) endM a b h
          have hs : (n + 1) * step = n * step + step := Nat.succ_mul n step
          omega
    · rw [if_neg h1] at h; simp at h

theorem dayIntervals_get {step : Nat} (hstep : 0 < step) :
    ∀ (i cur endM a b : Nat), (dayIntervals cur endM step)[i]? = some (a, b) →
      a = cur + i * step ∧ b = a + step ∧ b ≤ endM := by
  intro i cur endM a b h
  exact dayIntervalsGo_get (endM - cur) i cur endM a b h

/-- C3: for every operating-hours table, horizon day and positive slot
    length, the generator's slots for a day are the labels of the
    arithmetic interval sequence starting at the configured open time;
    every interval is exactly slot_minutes long, earlier slots end before
    later ones start (no overlap), and no interval runs past the
    configured close time (no short trailing slot). -/
theorem c3_availability_slots :
    ∀ (day : Date) (hours : List (Nat × Time × Time)) (step : Nat) (st en : Time),
      0 < step →
      lookupHours (weekdayOf day) hours = some (st, en) →
      buildDaySlots day hours step =
        (dayIntervals st.toMin en.toMin step).map
          (fun p => generateSlotLabel day (timeOfMin p.1) (timeOfMin p.2)) ∧
      (∀ (i a b : Nat), (dayIntervals st.toMin en.toMin step)[i]? = some (a, b) →
        a = st.toMin + i * step ∧ b = a + step ∧ b ≤ en.toMin) ∧
      (∀ (i j ai bi aj bj : Nat), i < j →
        (dayIntervals st.toMin en.toMin step)[i]? = some (ai, bi) →
        (dayIntervals st.toMin en.toMin step)[j]? = some (aj, bj) → bi ≤ aj) := by
  intro day hours step st en hstep hlook
  refine ⟨by simp [buildDaySlots, hlook], fun i a b h => dayIntervals_get hstep i _ _ a b h, ?_⟩
  intro i j ai bi aj bj hij hi hj
  have h1 := dayIntervals_get hstep i _ _ ai bi hi
  have h2 := dayIntervals_get hstep j _ _ aj bj hj
  have : (i + 1) * step ≤ j * step := Nat.mul_le_mul_right step (by omega)
  have hs : (i + 1) * step = i * step + step := Nat.succ_mul i step
  omega

/-- Witness for C3 at the SLO Monday table with 15-minute slots. -/
theorem c3_witness :
    buildDaySlots ⟨2025, 1, 6⟩ sloHours 15 =
      (dayIntervals (Time.toMin ⟨9, 0⟩) (Time.toMin ⟨21, 0⟩) 15).map
        (fun p => generateSlotLabel ⟨2025, 1, 6⟩ (timeOfMin p.1) (timeOfMin p.2)) ∧
    (∀ (i a b : Nat), (dayIntervals (Time.toMin ⟨9, 0⟩) (Time.toMin ⟨21, 0⟩) 15)[i]? = some (a, b) →
      a = Time.toMin ⟨9, 0⟩ + i * 15 ∧ b = a + 15 ∧ b ≤ Time.toMin ⟨21, 0⟩) ∧
    (∀ (i j ai bi aj bj : Nat), i < j →
      (dayIntervals (Time.toMin ⟨9, 0⟩) (Time.toMin ⟨21, 0⟩) 15)[i]? = some (ai, bi) →
      (dayIntervals (Time.toMin ⟨9, 0⟩) (Time.toMin ⟨21, 0⟩) 15)[j]? = some (aj, bj) → bi ≤ aj) :=
  c3_availability_slots ⟨2025, 1, 6⟩ sloHours 15 ⟨9, 0⟩ ⟨21, 0⟩ (by decide) (by decide)

/-! ## C9: grade entry -/

theorem updateGradeGo_spec (email slot grade gradedBy now : String) :
    ∀ (bs out : List Rec), updateGradeGo email slot grade gradedBy now bs = some out →
      ∃ (i : Nat) (r : Rec),
        bs[i]? = some r ∧
        (r.email = email ∧ r.slot = slot ∧ isActive r = true) ∧
        (∀ (j : Nat), j < i → ∀ x, bs[j]? = some x →
          ¬(x.email = email ∧ x.slot = slot ∧ isActive x = true)) ∧
        out = bs.set i { r with grade := grade, gradedBy := gradedBy, updatedAt := now } := by
  intro bs
  induction bs with
  | nil => intro out h; simp [updateGradeGo] at h
  | cons r rs ih =>
    intro out h
    simp only [updateGradeGo] at h
    by_cases hp : (r.email == email && r.slot == slot && isActive r) = true
    · rw [if_pos hp] at h
      simp at h
      simp only [Bool.and_eq_true, beq_iff_eq] at hp
      refine ⟨0, r, by simp, ⟨hp.1.1, hp.1.2, hp.2⟩, by omega, ?_⟩
      simp [← h]
    · rw [if_neg hp] at h
      cases hgo : updateGradeGo email slot grade gradedBy now rs with
      | none => rw [hgo] at h; simp at h
      | some out' =>
        rw [hgo] at h
        simp at h
        obtain ⟨i, x, hx, hxp, hfirst, hout⟩ := ih out' hgo
        simp only [Bool.and_eq_true, beq_iff_eq] at hp
        refine ⟨i + 1, x, by simpa using hx, hxp, ?_, ?_⟩
        · intro j hj y hy
          cases j with
          | zero =>
            simp at hy
            intro hc
            exact hp ⟨⟨by rw [hy]; exact hc.1, by rw [hy]; exact hc.2.1⟩, by rw [hy]; exact hc.2.2⟩
          | succ k =>
            simp at hy
            exact hfirst k (by omega) y hy
        · simp [← h, hout]

/-- C9: a grade entry updates exactly the first active record matching
    the selected student's email and slot, changing only its grade,
    graded_by and updated_at fields; every other record, every other
    field of the matched record, and every record's booking status are
    unchanged. -/
theorem c9_grade_update_frame :
    ∀ (bs : List Rec) (email slot grade gradedBy now : String) (out : List Rec),
      updateGrade bs email slot grade gradedBy now = some out →
      ∃ (i : Nat) (r : Rec),
        bs[i]? = some r ∧
        (r.email = email ∧ r.slot = slot ∧ isActive r = true) ∧
        (∀ (j : Nat), j < i → ∀ x, bs[j]? = some x →
          ¬(x.email = email ∧ x.slot = slot ∧ isActive x = true)) ∧
        out = bs.set i { r with grade := grade, gradedBy := gradedBy, updatedAt := now } ∧
        out.length = bs.length ∧
        (∀ (j : Nat), j ≠ i → out[j]? = bs[j]?) ∧
        (∀ (j : Nat) (x y : Rec), bs[j]? = some x → out[j]? = some y →
          y.status = x.status ∧ y.name = x.name ∧ y.email = x.email ∧
          y.studentId = x.studentId ∧ y.dsps = x.dsps ∧ y.slot = x.slot ∧
          y.labLocation = x.labLocation ∧ y.examNumber = x.examNumber ∧
          y.groupId = x.groupId ∧ y.createdAt = x.createdAt) := by
  intro bs email slot grade gradedBy now out h
  obtain ⟨i, r, hr, hrp, hfirst, hout⟩ := updateGradeGo_spec email slot grade gradedBy now bs out h
  refine ⟨i, r, hr, hrp, hfirst, hout, by simp [hout], ?_, ?_⟩
  · intro j hj
    rw [hout]
    exact List.getElem?_set_ne (by omega)
  · intro j x y hx hy
    by_cases hji : j = i
    · subst hji
      have hlen : j < bs.length := by
        by_contra hh
        rw [List.getElem?_eq_none (by omega)] at hr
        simp at hr
      rw [hout, List.getElem?_set_eq_of_lt _ hlen] at hy
      rw [hr] at hx
      simp at hx
      simp at hy
      subst hx
      simp [← hy]
    · rw [hout, List.getElem?_set_ne (by omega)] at hy
      rw [hx] at hy
      simp at hy
      simp [← hy]

/-- Witness for C9: a concrete one-record ledger whose single active
    booking is graded. -/
theorem c9_witness :
    ∃ (i : Nat) (r : Rec),
      ([(⟨"Ann", "a@my.cuesta.edu", "900111", false, "Monday 01/06/25 9:00–9:15 AM",
          "SLO AT Lab", "2", "", "", "", "booked", "t0", "t0"⟩ : Rec)])[i]? = some r ∧
      (r.email = "a@my.cuesta.edu" ∧ r.slot = "Monday 01/06/25 9:00–9:15 AM" ∧
        isActive r = true) ∧
      (∀ (j : Nat), j < i → ∀ x,
        ([(⟨"Ann", "a@my.cuesta.edu", "900111", false, "Monday 01/06/25 9:00–9:15 AM",
            "SLO AT Lab", "2", "", "", "", "booked", "t0", "t0"⟩ : Rec)])[j]? = some x →
        ¬(x.email = "a@my.cuesta.edu" ∧ x.slot = "Monday 01/06/25 9:00–9:15 AM" ∧
          isActive x = true)) ∧
      [(⟨"Ann", "a@my.cuesta.edu", "900111", false, "Monday 01/06/25 9:00–9:15 AM",
         "SLO AT Lab", "2", "95", "JT", "", "booked", "t0", "t2"⟩ : Rec)] =
        [(⟨"Ann", "a@my.cuesta.edu", "900111", false, "Monday 01/06/25 9:00–9:15 AM",
           "SLO AT Lab", "2", "", "", "", "booked", "t0", "t0"⟩ : Rec)].set i
          { r with grade := "95", gradedBy := "JT", updatedAt := "t2" } ∧
      ([(⟨"Ann", "a@my.cuesta.edu", "900111", false, "Monday 01/06/25 9:00–9:15 AM",
          "SLO AT Lab", "2", "95", "JT", "", "booked", "t0", "t2"⟩ : Rec)]).length =
        ([(⟨"Ann", "a@my.cuesta.edu", "900111", false, "Monday 01/06/25 9:00–9:15 AM",
            "SLO AT Lab", "2", "", "", "", "booked", "t0", "t0"⟩ : Rec)]).length ∧
      (∀ (j : Nat), j ≠ i →
        ([(⟨"Ann", "a@my.cuesta.edu", "900111", false, "Monday 01/06/25 9:00–9:15 AM",
            "SLO AT Lab", "2", "95", "JT", "", "booked", "t0", "t2"⟩ : Rec)])[j]? =
        ([(⟨"Ann", "a@my.cuesta.edu", "900111", false, "Monday 01/06/25 9:00–9:15 AM",
            "SLO AT Lab", "2", "", "", "", "booked", "t0", "t0"⟩ : Rec)])[j]?) ∧
      (∀ (j : Nat) (x y : Rec),
        ([(⟨"Ann", "a@my.cuesta.edu", "900111", false, "Monday 01/06/25 9:00–9:15 AM",
            "SLO AT Lab", "2", "", "", "", "booked", "t0", "t0"⟩ : Rec)])[j]? = some x →
        ([(⟨"Ann", "a@my.cuesta.edu", "900111", false, "Monday 01/06/25 9:00–9:15 AM",
            "SLO AT Lab", "2", "95", "JT", "", "booked", "t0", "t2"⟩ : Rec)])[j]? = some y →
        y.status = x.status ∧ y.name = x.name ∧ y.email = x.email ∧
        y.studentId = x.studentId ∧ y.dsps = x.dsps ∧ y.slot = x.slot ∧
        y.labLocation = x.labLocation ∧ y.examNumber = x.examNumber ∧
        y.groupId = x.groupId ∧ y.createdAt = x.createdAt) :=
  c9_grade_update_frame _ "a@my.cuesta.edu" "Monday 01/06/25 9:00–9:15 AM" "95" "JT" "t2" _
    (by decide)

/-! ## C2: the same-day lockout of the unified signup flow -/

theorem appendNew_booked :
    ∀ (bs2 : List Rec) (name email sid : String) (dsps : Bool)
      (exam lab slot1 : String) (slot2? : Option String) (now gid : String)
      (o : SignupOutcome) (l : List Rec),
      appendNew bs2 name email sid dsps exam lab slot1 slot2? now gid = some (o, l) →
      o = SignupOutcome.booked ∧ ∃ tl, tl ≠ [] ∧ l = bs2 ++ tl := by
  intro bs2 name email sid dsps exam lab slot1 slot2? now gid o l h
  cases dsps with
  | false => simp [appendNew] at h; exact ⟨h.1.symm, _, by simp, h.2.symm⟩
  | true =>
    cases slot2? with
    | none => simp [appendNew] at h
    | some s2 => simp [appendNew] at h; exact ⟨h.1.symm, _, by simp, h.2.symm⟩

/-- C2 (amended): when a student with an active same-ISO-week booking for
    the same (student, exam) submits a request, the unified signup flow
    rejects with the same-day lock exactly when some currently active
    same-week record's slot falls on today — the target slot's own date
    plays no role — and a rejected request leaves the table untouched. -/
theorem c2_same_day_lock :
    ∀ (bs : List Rec) (name email sid : String) (dsps : Bool) (exam lab slot1 : String)
      (slot2? : Option String) (today : Date) (now gid : String)
      (outcome : SignupOutcome) (out : List Rec) (t : DT),
      uiConfirmBooking bs name email sid dsps exam lab slot1 slot2? today now gid =
        some (outcome, out) →
      parseSlotTime slot1 = some t →
      (∃ r ∈ studentActive bs email exam, slotWeek r.slot = some (isoWeek t.date)) →
      ((outcome = SignupOutcome.rejectedSameDay ↔
        ∃ r ∈ studentActive bs email exam,
          slotWeek r.slot = some (isoWeek t.date) ∧ slotDateOf r.slot = some today) ∧
       (outcome = SignupOutcome.rejectedSameDay → out = bs)) := by
  intro bs name email sid dsps exam lab slot1 slot2? today now gid outcome out t h ht hex
  unfold uiConfirmBooking at h
  rw [ht] at h
  simp only at h
  cases hw : omap (fun r => slotWeek r.slot) (studentActive bs email exam) with
  | none => rw [hw] at h; simp at h
  | some weeks =>
    rw [hw] at h
    dsimp only at h
    have hmem : isoWeek t.date ∈ weeks := by
      obtain ⟨r, hr, hrw⟩ := hex
      exact (omap_mem _ _ _ hw _).mpr ⟨r, hr, hrw⟩
    rw [if_pos hmem] at h
    by_cases hday :
        ((studentActive bs email exam).filter fun r =>
          slotWeek r.slot == some (isoWeek t.date)).any
            (fun r => slotDateOf r.slot == some today) = true
    · rw [if_pos hday] at h
      injection h with h1
      injection h1 with ho hout
      subst ho
      subst hout
      constructor
      · constructor
        · intro _
          rw [List.any_eq_true] at hday
          obtain ⟨r, hrmem, hrd⟩ := hday
          rw [List.mem_filter] at hrmem
          exact ⟨r, hrmem.1, beq_iff_eq.mp hrmem.2, beq_iff_eq.mp hrd⟩
        · intro _; rfl
      · intro _; rfl
    · rw [if_neg hday] at h
      have hbooked : outcome = SignupOutcome.booked := by
        cases hc : cancelSameWeek bs email exam (isoWeek t.date)
            ((studentActive bs email exam).filter fun r =>
              slotWeek r.slot == some (isoWeek t.date)) now with
        | none => rw [hc] at h; simp at h
        | some bs2 =>
          rw [hc] at h
          exact (appendNew_booked _ _ _ _ _ _ _ _ _ _ _ _ _ h).1
      subst hbooked
      constructor
      · constructor
        · intro hco
          simp at hco
        · intro hrhs
          exfalso
          apply hday
          rw [List.any_eq_true]
          obtain ⟨r, hr, hrw, hrd⟩ := hrhs
          exact ⟨r, List.mem_filter.mpr ⟨hr, beq_iff_eq.mpr hrw⟩, beq_iff_eq.mpr hrd⟩
      · intro hco
        simp at hco

/-- Witness for C2: a student booked today (Monday 01/06/25) asks for a
    later slot; the flow rejects with the same-day lock and writes
    nothing. -/
theorem c2_witness :
    ((SignupOutcome.rejectedSameDay = SignupOutcome.rejectedSameDay ↔
      ∃ r ∈ studentActive
        [(⟨"Ann", "a@my.cuesta.edu", "900111", false, "Monday 01/06/25 9:00–9:15 AM",
           "SLO AT Lab", "2", "", "", "", "booked", "t0", "t0"⟩ : Rec)]
        "a@my.cuesta.edu" "2",
        slotWeek r.slot = some (isoWeek (⟨2025, 1, 6⟩ : Date)) ∧
          slotDateOf r.slot = some ⟨2025, 1, 6⟩) ∧
     (SignupOutcome.rejectedSameDay = SignupOutcome.rejectedSameDay →
      [(⟨"Ann", "a@my.cuesta.edu", "900111", false, "Monday 01/06/25 9:00–9:15 AM",
         "SLO AT Lab", "2", "", "", "", "booked", "t0", "t0"⟩ : Rec)] =
      [(⟨"Ann", "a@my.cuesta.edu", "900111", false, "Monday 01/06/25 9:00–9:15 AM",
         "SLO AT Lab", "2", "", "", "", "booked", "t0", "t0"⟩ : Rec)])) :=
  c2_same_day_lock _ "Ann" "a@my.cuesta.edu" "900111" false "2" "SLO AT Lab"
    "Monday 01/06/25 10:00–10:15 AM" none ⟨2025, 1, 6⟩ "t1" "g1"
    SignupOutcome.rejectedSameDay _ ⟨⟨2025, 1, 6⟩, ⟨10, 0⟩⟩
    (by decide) (by decide) (by decide)

/-- C2 (counterexample to the claim as stated): the claim requires the
    lock to fire only when the target slot's date differs from today, but
    with an active booking today and a target slot later the same day
    (same ISO week, target date equal to today) the flow still rejects. -/
theorem c2_counterexample :
    uiConfirmBooking
      [(⟨"Ann", "a@my.cuesta.edu", "900111", false, "Monday 01/06/25 9:00–9:15 AM",
         "SLO AT Lab", "2", "", "", "", "booked", "t0", "t0"⟩ : Rec)]
      "Ann" "a@my.cuesta.edu" "900111" false "2" "SLO AT Lab"
      "Monday 01/06/25 10:00–10:15 AM" none ⟨2025, 1, 6⟩ "t1" "g1" =
      some (SignupOutcome.rejectedSameDay,
        [(⟨"Ann", "a@my.cuesta.edu", "900111", false, "Monday 01/06/25 9:00–9:15 AM",
           "SLO AT Lab", "2", "", "", "", "booked", "t0", "t0"⟩ : Rec)]) ∧
    slotDateOf "Monday 01/06/25 10:00–10:15 AM" = some ⟨2025, 1, 6⟩ ∧
    slotWeek "Monday 01/06/25 10:00–10:15 AM" =
      slotWeek "Monday 01/06/25 9:00–9:15 AM" := by
  decide

/-! ## C6: lifecycle — cancellation is a status flip, never a deletion -/

theorem frame_refl (bs : List Rec) (now : String) : FrameOk bs bs now :=
  ⟨le_refl _, fun _ _ h => Or.inl h⟩

theorem frame_append (bs out tl : List Rec) (now : String)
    (h : FrameOk bs out now) : FrameOk bs (out ++ tl) now := by
  obtain ⟨hlen, hpt⟩ := h
  refine ⟨by simp; omega, fun i r hr => ?_⟩
  have hi : i < out.length := by
    have : i < bs.length := by
      by_contra hh
      rw [List.getElem?_eq_none (by omega)] at hr
      simp at hr
    omega
  rw [List.getElem?_append_left hi]
  exact hpt i r hr

theorem cancelSameWeek_frame (bs : List Rec) (email exam : String) (tw : Nat)
    (sw : List Rec) (now : String) (out : List Rec)
    (h : cancelSameWeek bs email exam tw sw now = some out) :
    FrameOk bs out now ∧ out.length = bs.length := by
  unfold cancelSameWeek at h
  by_cases hg : sw.any (fun r => r.groupId != "") = true
  · rw [if_pos hg] at h
    injection h with h
    refine ⟨⟨by simp [← h], fun i r hr => ?_⟩, by simp [← h]⟩
    rw [← h, List.getElem?_map, hr]
    by_cases hc : r.groupId ≠ "" ∧ sw.any (fun x => x.groupId == r.groupId) = true
    · rw [Option.map_some']
      rw [if_pos hc]
      right; rfl
    · rw [Option.map_some']
      rw [if_neg hc]
      left; rfl
  · rw [if_neg hg] at h
    have hlen := omap_length _ _ _ h
    refine ⟨⟨by omega, fun i r hr => ?_⟩, by omega⟩
    obtain ⟨y, hy, hfy⟩ := omap_get _ _ _ h i r hr
    cases hsw : slotWeek r.slot with
    | none => rw [hsw] at hfy; simp at hfy
    | some w =>
      rw [hsw] at hfy
      simp at hfy
      by_cases hc : r.email = email ∧ r.examNumber = exam ∧ w = tw ∧ isActive r = true
      · rw [if_pos hc] at hfy
        right; rw [hy, hfy]
      · rw [if_neg hc] at hfy
        left; rw [hy, hfy]

theorem uiConfirmBooking_frame :
    ∀ (bs : List Rec) (name email sid : String) (dsps : Bool) (exam lab slot1 : String)
      (slot2? : Option String) (today : Date) (now gid : String)
      (outcome : SignupOutcome) (out : List Rec),
      uiConfirmBooking bs name email sid dsps exam lab slot1 slot2? today now gid =
        some (outcome, out) →
      FrameOk bs out now := by
  intro bs name email sid dsps exam lab slot1 slot2? today now gid outcome out h
  unfold uiConfirmBooking at h
  cases hp : parseSlotTime slot1 with
  | none => rw [hp] at h; simp at h
  | some t =>
    rw [hp] at h
    dsimp only at h
    cases hw : omap (fun r => slotWeek r.slot) (studentActive bs email exam) with
    | none => rw [hw] at h; simp at h
    | some weeks =>
      rw [hw] at h
      dsimp only at h
      by_cases hmem : isoWeek t.date ∈ weeks
      · rw [if_pos hmem] at h
        by_cases hday :
            ((studentActive bs email exam).filter fun r =>
              slotWeek r.slot == some (isoWeek t.date)).any
                (fun r => slotDateOf r.slot == some today) = true
        · rw [if_pos hday] at h
          injection h with h1
          injection h1 with _ hout
          rw [← hout]
          exact frame_refl bs now
        · rw [if_neg hday] at h
          cases hc : cancelSameWeek bs email exam (isoWeek t.date)
              ((studentActive bs email exam).filter fun r =>
                slotWeek r.slot == some (isoWeek t.date)) now with
          | none => rw [hc] at h; simp at h
          | some bs2 =>
            rw [hc] at h
            obtain ⟨-, tl, -, hl⟩ := appendNew_booked _ _ _ _ _ _ _ _ _ _ _ _ _ h
            rw [hl]
            exact frame_append _ _ _ _ (cancelSameWeek_frame _ _ _ _ _ _ _ hc).1
      · rw [if_neg hmem] at h
        obtain ⟨-, tl, -, hl⟩ := appendNew_booked _ _ _ _ _ _ _ _ _ _ _ _ _ h
        rw [hl]
        exact frame_append _ _ _ _ (frame_refl bs now)

/-- C6 (amended): in the unified flows of ui_components, no lifecycle
    operation ever removes a record — every input record survives at its
    position, at most with the cancellation status flip — a reschedule is
    cancel-old plus create-new with a fresh created timestamp, the group
    identifier is preserved across a DSPS reschedule and cleared for a
    non-accommodation reschedule. (The legacy main.py confirm flow
    instead physically drops rows: see the counterexample.) -/
theorem c6_lifecycle :
    (∀ (bs : List Rec) (name email sid : String) (dsps : Bool) (exam lab slot1 : String)
       (slot2? : Option String) (today : Date) (now gid : String)
       (outcome : SignupOutcome) (out : List Rec),
       uiConfirmBooking bs name email sid dsps exam lab slot1 slot2? today now gid =
         some (outcome, out) → FrameOk bs out now) ∧
    (∀ (bs : List Rec) (gid s1 s2 now : String) (out : List Rec),
       adminRescheduleDsps bs gid s1 s2 now = some out →
       FrameOk bs out now ∧ out.length = bs.length + 2 ∧
       ∃ r1 r2, out[bs.length]? = some r1 ∧ out[bs.length + 1]? = some r2 ∧
         r1.groupId = gid ∧ r2.groupId = gid ∧ r1.createdAt = now ∧ r2.createdAt = now ∧
         r1.status = "booked" ∧ r2.status = "booked" ∧ r1.slot = s1 ∧ r2.slot = s2) ∧
    (∀ (bs : List Rec) (idx : Nat) (newSlot now : String) (out : List Rec),
       adminRescheduleSingle bs idx newSlot now = some out →
       FrameOk bs out now ∧ out.length = bs.length + 1 ∧
       ∃ old rn, bs[idx]? = some old ∧ out[bs.length]? = some rn ∧
         rn.groupId = "" ∧ rn.createdAt = now ∧ rn.status = "booked" ∧ rn.slot = newSlot ∧
         out = bs.set idx (cancelMark old now) ++ [rn]) := by
  refine ⟨uiConfirmBooking_frame, ?_, ?_⟩
  · intro bs gid s1 s2 now out h
    unfold adminRescheduleDsps at h
    cases hg : (bs.filter fun r => r.groupId == gid).head? with
    | none => rw [hg] at h; simp at h
    | some g0 =>
      rw [hg] at h
      injection h with h
      have hmaplen : (bs.map fun r => if r.groupId = gid then cancelMark r now else r).length =
          bs.length := by simp
      constructor
      · rw [← h]
        apply frame_append
        refine ⟨by simp, fun i r hr => ?_⟩
        rw [List.getElem?_map, hr, Option.map_some']
        by_cases hc : r.groupId = gid
        · rw [if_pos hc]; right; rfl
        · rw [if_neg hc]; left; rfl
      · refine ⟨by simp [← h], ?_⟩
        refine ⟨newRec g0.name g0.email g0.studentId true s1 g0.labLocation g0.examNumber gid now,
          newRec g0.name g0.email g0.studentId true s2 g0.labLocation g0.examNumber gid now,
          ?_, ?_, rfl, rfl, rfl, rfl, rfl, rfl, rfl, rfl⟩
        · rw [← h, List.getElem?_append_right (by omega)]
          simp [hmaplen]
        · rw [← h, List.getElem?_append_right (by omega)]
          simp [hmaplen]
  · intro bs idx newSlot now out h
    unfold adminRescheduleSingle at h
    cases ho : bs[idx]? with
    | none => rw [ho] at h; simp at h
    | some old =>
      rw [ho] at h
      injection h with h
      have hidx : idx < bs.length := by
        by_contra hh
        rw [List.getElem?_eq_none (by omega)] at ho
        simp at ho
      constructor
      · rw [← h]
        apply frame_append
        refine ⟨by simp, fun i r hr => ?_⟩
        by_cases hc : i = idx
        · subst hc
          rw [ho] at hr
          injection hr with hr
          rw [List.getElem?_set_eq_of_lt _ hidx, hr]
          right; rfl
        · rw [List.getElem?_set_ne (by omega)]
          left; exact hr
      · refine ⟨by simp [← h], ?_⟩
        refine ⟨old,
          { name := old.name, email := old.email, studentId := old.studentId, dsps := false,
            slot := newSlot, labLocation := old.labLocation, examNumber := old.examNumber,
            grade := old.grade, gradedBy := old.gradedBy, groupId := "", status := "booked",
            createdAt := now, updatedAt := now }, ?_, ?_, ?_, ?_, ?_, ?_, ?_⟩
        · rfl
        · rw [← h, List.getElem?_append_right (by simp)]
          simp
        · rfl
        · rfl
        · rfl
        · rfl
        · exact h.symm

/-- Witness for C6: a concrete admin single reschedule — the old row is
    kept (canceled by status flip, never deleted) and a fresh row is
    appended. -/
theorem c6_witness :
    FrameOk
      [(⟨"Ann", "a@my.cuesta.edu", "900111", false, "Tuesday 01/07/25 9:00–9:15 AM",
         "SLO AT Lab", "2", "", "", "", "booked", "t0", "t0"⟩ : Rec)]
      [(⟨"Ann", "a@my.cuesta.edu", "900111", false, "Tuesday 01/07/25 9:00–9:15 AM",
         "SLO AT Lab", "2", "", "", "", "canceled", "t0", "t9"⟩ : Rec),
       (⟨"Ann", "a@my.cuesta.edu", "900111", false, "Wednesday 01/08/25 10:00–10:15 AM",
         "SLO AT Lab", "2", "", "", "", "booked", "t9", "t9"⟩ : Rec)] "t9" :=
  (c6_lifecycle.2.2
    [(⟨"Ann", "a@my.cuesta.edu", "900111", false, "Tuesday 01/07/25 9:00–9:15 AM",
       "SLO AT Lab", "2", "", "", "", "booked", "t0", "t0"⟩ : Rec)]
    0 "Wednesday 01/08/25 10:00–10:15 AM" "t9"
    [(⟨"Ann", "a@my.cuesta.edu", "900111", false, "Tuesday 01/07/25 9:00–9:15 AM",
       "SLO AT Lab", "2", "", "", "", "canceled", "t0", "t9"⟩ : Rec),
     (⟨"Ann", "a@my.cuesta.edu", "900111", false, "Wednesday 01/08/25 10:00–10:15 AM",
       "SLO AT Lab", "2", "", "", "", "booked", "t9", "t9"⟩ : Rec)] (by decide)).1

/-- C6 (counterexample to the claim as stated): the legacy confirm flow
    of main.py physically removes the rescheduled row — after a same-week
    reschedule from Tuesday to Wednesday (today being Monday 01/06/25)
    the original Tuesday record is no longer anywhere in the table. -/
theorem c6_counterexample :
    mainConfirmBooking
      [(⟨"Ann", "a@my.cuesta.edu", "900111", false, "Tuesday 01/07/25 9:00–9:15 AM",
         "SLO AT Lab"⟩ : RecL)]
      "Ann" "a@my.cuesta.edu" "900111" false "SLO AT Lab"
      "Wednesday 01/08/25 10:00–10:15 AM" ⟨2025, 1, 6⟩ =
      some (MainOutcome.booked,
        [(⟨"Ann", "a@my.cuesta.edu", "900111", false, "Wednesday 01/08/25 10:00–10:15 AM",
           "SLO AT Lab"⟩ : RecL)]) ∧
    (⟨"Ann", "a@my.cuesta.edu", "900111", false, "Tuesday 01/07/25 9:00–9:15 AM",
       "SLO AT Lab"⟩ : RecL) ∉
      [(⟨"Ann", "a@my.cuesta.edu", "900111", false, "Wednesday 01/08/25 10:00–10:15 AM",
         "SLO AT Lab"⟩ : RecL)] := by
  decide

/-! ## C4: the accommodation double block -/

theorem dspsAvailablePairs_spec (daySlots occupied : List String) (now : DT)
    (idx : Nat) (s1 s2 : String)
    (h : (dspsAvailablePairs daySlots occupied now)[idx]? = some (s1, s2)) :
    ∃ i, daySlots[i]? = some s1 ∧ daySlots[i + 1]? = some s2 ∧
      s1 ∉ occupied ∧ s2 ∉ occupied ∧ futureB now s1 = true ∧ futureB now s2 = true := by
  have hmem : (s1, s2) ∈ dspsAvailablePairs daySlots occupied now :=
    List.getElem?_mem h
  unfold dspsAvailablePairs at hmem
  rw [List.mem_filterMap] at hmem
  obtain ⟨i, -, hi⟩ := hmem
  refine ⟨i, ?_⟩
  cases h1 : daySlots[i]? with
  | none => rw [h1] at hi; simp at hi
  | some x1 =>
    cases h2 : daySlots[i + 1]? with
    | none => rw [h1, h2] at hi; simp at hi
    | some x2 =>
      rw [h1, h2] at hi
      dsimp only at hi
      by_cases hc : x1 ∉ occupied ∧ x2 ∉ occupied ∧ futureB now x1 = true ∧ futureB now x2 = true
      · rw [if_pos hc] at hi
        injection hi with hi
        rw [Prod.mk.injEq] at hi
        obtain ⟨hx1, hx2⟩ := hi
        subst hx1
        subst hx2
        exact ⟨rfl, rfl, hc.1, hc.2.1, hc.2.2.1, hc.2.2.2⟩
      · rw [if_neg hc] at hi
        simp at hi

theorem uiConfirmBooking_dsps_shape
    (bs : List Rec) (name email sid exam lab s1 s2 : String)
    (today : Date) (now gid : String) (out : List Rec)
    (h : uiConfirmBooking bs name email sid true exam lab s1 (some s2) today now gid =
      some (SignupOutcome.booked, out)) :
    ∃ bs2 : List Rec, bs2.length = bs.length ∧
      out = bs2 ++ [newRec name email sid true s1 lab exam gid now,
                    newRec name email sid true s2 lab exam gid now] := by
  unfold uiConfirmBooking at h
  cases hp : parseSlotTime s1 with
  | none => rw [hp] at h; simp at h
  | some t =>
    rw [hp] at h
    dsimp only at h
    cases hw : omap (fun r => slotWeek r.slot) (studentActive bs email exam) with
    | none => rw [hw] at h; simp at h
    | some weeks =>
      rw [hw] at h
      dsimp only at h
      by_cases hmem : isoWeek t.date ∈ weeks
      · rw [if_pos hmem] at h
        by_cases hday :
            ((studentActive bs email exam).filter fun r =>
              slotWeek r.slot == some (isoWeek t.date)).any
                (fun r => slotDateOf r.slot == some today) = true
        · rw [if_pos hday] at h
          simp at h
        · rw [if_neg hday] at h
          cases hc : cancelSameWeek bs email exam (isoWeek t.date)
              ((studentActive bs email exam).filter fun r =>
                slotWeek r.slot == some (isoWeek t.date)) now with
          | none => rw [hc] at h; simp at h
          | some bs2 =>
            rw [hc] at h
            simp only [appendNew] at h
            injection h with h1
            injection h1 with _ hout
            exact ⟨bs2, (cancelSameWeek_frame _ _ _ _ _ _ _ hc).2, hout.symm⟩
      · rw [if_neg hmem] at h
        simp only [appendNew] at h
        injection h with h1
        injection h1 with _ hout
        exact ⟨bs, rfl, hout.symm⟩

/-- C4 (amended): a DSPS booking succeeds only when both members of an
    adjacent pair of the day's availability list are simultaneously
    unoccupied by active bookings and strictly in the future; on success
    exactly two records are created, sharing the one freshly generated
    non-empty group identifier and identical student name, email, student
    ID, exam category and campus. ("Adjacent in the availability list"
    coincides with chronologically adjacent only when the day's list is in
    chronological order — which generate_slots' lexicographic sorted()
    violates; see the counterexample.) -/
theorem c4_dsps_double_block :
    ∀ (bs : List Rec) (name email sid exam lab : String) (daySlots : List String)
      (now : DT) (today : Date) (nowStr gid : String) (idx : Nat) (out : List Rec),
      uiDspsSignup bs name email sid exam lab daySlots now today nowStr gid idx =
        some (SignupOutcome.booked, out) →
      gid ≠ "" →
      ∃ (i : Nat) (s1 s2 : String) (bs2 : List Rec),
        daySlots[i]? = some s1 ∧ daySlots[i + 1]? = some s2 ∧
        s1 ∉ activeSlotsOf bs ∧ s2 ∉ activeSlotsOf bs ∧
        futureB now s1 = true ∧ futureB now s2 = true ∧
        bs2.length = bs.length ∧
        out = bs2 ++ [newRec name email sid true s1 lab exam gid nowStr,
                      newRec name email sid true s2 lab exam gid nowStr] ∧
        (newRec name email sid true s1 lab exam gid nowStr).groupId = gid ∧
        (newRec name email sid true s2 lab exam gid nowStr).groupId = gid ∧
        gid ≠ "" ∧
        (newRec name email sid true s1 lab exam gid nowStr).name =
          (newRec name email sid true s2 lab exam gid nowStr).name ∧
        (newRec name email sid true s1 lab exam gid nowStr).email =
          (newRec name email sid true s2 lab exam gid nowStr).email ∧
        (newRec name email sid true s1 lab exam gid nowStr).studentId =
          (newRec name email sid true s2 lab exam gid nowStr).studentId ∧
        (newRec name email sid true s1 lab exam gid nowStr).examNumber =
          (newRec name email sid true s2 lab exam gid nowStr).examNumber ∧
        (newRec name email sid true s1 lab exam gid nowStr).labLocation =
          (newRec name email sid true s2 lab exam gid nowStr).labLocation := by
  intro bs name email sid exam lab daySlots now today nowStr gid idx out h hgid
  unfold uiDspsSignup at h
  cases hp : (dspsAvailablePairs daySlots (activeSlotsOf bs) now)[idx]? with
  | none => rw [hp] at h; simp at h
  | some pr =>
    rw [hp] at h
    obtain ⟨s1, s2⟩ := pr
    obtain ⟨i, h1, h2, ho1, ho2, hf1, hf2⟩ :=
      dspsAvailablePairs_spec daySlots (activeSlotsOf bs) now idx s1 s2 hp
    obtain ⟨bs2, hlen, hout⟩ :=
      uiConfirmBooking_dsps_shape bs name email sid exam lab s1 s2 today nowStr gid out h
    exact ⟨i, s1, s2, bs2, h1, h2, ho1, ho2, hf1, hf2, hlen, hout, rfl, rfl, hgid,
      rfl, rfl, rfl, rfl, rfl⟩

/-- Witness for C4: a successful DSPS booking of the first two slots of a
    (chronological) two-slot day with an empty ledger. -/
theorem c4_witness :
    ∃ (i : Nat) (s1 s2 : String) (bs2 : List Rec),
      (["Monday 01/06/25 9:00–9:15 AM", "Monday 01/06/25 9:15–9:30 AM"])[i]? = some s1 ∧
      (["Monday 01/06/25 9:00–9:15 AM", "Monday 01/06/25 9:15–9:30 AM"])[i + 1]? = some s2 ∧
      s1 ∉ activeSlotsOf [] ∧ s2 ∉ activeSlotsOf [] ∧
      futureB ⟨⟨2025, 1, 5⟩, ⟨12, 0⟩⟩ s1 = true ∧ futureB ⟨⟨2025, 1, 5⟩, ⟨12, 0⟩⟩ s2 = true ∧
      bs2.length = ([] : List Rec).length ∧
      [newRec "Stu" "s@my.cuesta.edu" "900222" true "Monday 01/06/25 9:00–9:15 AM"
         "SLO AT Lab" "2" "g1" "t1",
       newRec "Stu" "s@my.cuesta.edu" "900222" true "Monday 01/06/25 9:15–9:30 AM"
         "SLO AT Lab" "2" "g1" "t1"] =
        bs2 ++ [newRec "Stu" "s@my.cuesta.edu" "900222" true s1 "SLO AT Lab" "2" "g1" "t1",
                newRec "Stu" "s@my.cuesta.edu" "900222" true s2 "SLO AT Lab" "2" "g1" "t1"] ∧
      (newRec "Stu" "s@my.cuesta.edu" "900222" true s1 "SLO AT Lab" "2" "g1" "t1").groupId =
        "g1" ∧
      (newRec "Stu" "s@my.cuesta.edu" "900222" true s2 "SLO AT Lab" "2" "g1" "t1").groupId =
        "g1" ∧
      ("g1" : String) ≠ "" ∧
      (newRec "Stu" "s@my.cuesta.edu" "900222" true s1 "SLO AT Lab" "2" "g1" "t1").name =
        (newRec "Stu" "s@my.cuesta.edu" "900222" true s2 "SLO AT Lab" "2" "g1" "t1").name ∧
      (newRec "Stu" "s@my.cuesta.edu" "900222" true s1 "SLO AT Lab" "2" "g1" "t1").email =
        (newRec "Stu" "s@my.cuesta.edu" "900222" true s2 "SLO AT Lab" "2" "g1" "t1").email ∧
      (newRec "Stu" "s@my.cuesta.edu" "900222" true s1 "SLO AT Lab" "2" "g1" "t1").studentId =
        (newRec "Stu" "s@my.cuesta.edu" "900222" true s2 "SLO AT Lab" "2" "g1" "t1").studentId ∧
      (newRec "Stu" "s@my.cuesta.edu" "900222" true s1 "SLO AT Lab" "2" "g1" "t1").examNumber =
        (newRec "Stu" "s@my.cuesta.edu" "900222" true s2 "SLO AT Lab" "2" "g1" "t1").examNumber ∧
      (newRec "Stu" "s@my.cuesta.edu" "900222" true s1 "SLO AT Lab" "2" "g1" "t1").labLocation =
        (newRec "Stu" "s@my.cuesta.edu" "900222" true s2 "SLO AT Lab" "2" "g1" "t1").labLocation :=
  c4_dsps_double_block [] "Stu" "s@my.cuesta.edu" "900222" "2" "SLO AT Lab"
    ["Monday 01/06/25 9:00–9:15 AM", "Monday 01/06/25 9:15–9:30 AM"]
    ⟨⟨2025, 1, 5⟩, ⟨12, 0⟩⟩ ⟨2025, 1, 5⟩ "t1" "g1" 0 _ (by decide) (by decide)

/-- C4 (counterexample to the claim as stated): on the availability list
    that generate_slots actually produces for SLO on Monday 01/06/25
    (lexicographically sorted), the flow successfully books the pair at
    sorted positions 43 and 44 — "8:45–9:00 PM" followed by
    "9:00–9:15 AM" — two slots that are not chronologically adjacent (the
    first ends at 21:00, the second starts at 09:00 the same day). -/
theorem c4_counterexample :
    (uiDspsSignup [] "Stu" "s@my.cuesta.edu" "900222" "2" "SLO AT Lab"
      (pySorted (buildDaySlots ⟨2025, 1, 6⟩ sloHours 15)) ⟨⟨2025, 1, 5⟩, ⟨12, 0⟩⟩
      ⟨2025, 1, 5⟩ "t1" "g1" 43).map (fun p => (p.1, p.2.map Rec.slot)) =
      some (SignupOutcome.booked,
        ["Monday 01/06/25 8:45–9:00 PM", "Monday 01/06/25 9:00–9:15 AM"]) ∧
    (parseSlotRange "Monday 01/06/25 8:45–9:00 PM").map (fun p => p.2.time) =
      some ⟨21, 0⟩ ∧
    (parseSlotRange "Monday 01/06/25 9:00–9:15 AM").map (fun p => p.1.time) =
      some ⟨9, 0⟩ ∧
    ((⟨21, 0⟩ : Time) ≠ ⟨9, 0⟩) := by
  decide

/-! ## C7 and C8: evaluations at the failing inputs -/

/-- C7 (code bug): generate_slots stores sorted(labels) under each day
    key, and sorted() on label strings is lexicographic, not
    chronological — for SLO on Monday 01/06/25 the stored list begins
    with the 10:00 AM label even though the 9:00 AM label, whose start
    time is an hour earlier, is in the same list. -/
theorem c7_sorted_not_chronological :
    generateSlotsFor sloHours ⟨2025, 1, 6⟩ 1 15 =
      [("Monday 01/06/25", pySorted (buildDaySlots ⟨2025, 1, 6⟩ sloHours 15))] ∧
    (pySorted (buildDaySlots ⟨2025, 1, 6⟩ sloHours 15)).head? =
      some "Monday 01/06/25 10:00–10:15 AM" ∧
    "Monday 01/06/25 9:00–9:15 AM" ∈ pySorted (buildDaySlots ⟨2025, 1, 6⟩ sloHours 15) ∧
    parseSlotTime "Monday 01/06/25 9:00–9:15 AM" = some ⟨⟨2025, 1, 6⟩, ⟨9, 0⟩⟩ ∧
    parseSlotTime "Monday 01/06/25 10:00–10:15 AM" = some ⟨⟨2025, 1, 6⟩, ⟨10, 0⟩⟩ ∧
    Time.toMin ⟨9, 0⟩ < Time.toMin ⟨10, 0⟩ := by
  decide

/-- C8 (code bug): a plain single-slot (non-DSPS) student booking is
    created with group_id = str(uuid4()) — a non-empty group identifier
    on a record that is not part of any multi-slot unit. -/
theorem c8_single_booking_group_id :
    uiConfirmBooking [] "Stu" "s@my.cuesta.edu" "900222" false "2" "SLO AT Lab"
      "Monday 01/06/25 9:00–9:15 AM" none ⟨2025, 1, 5⟩ "t1"
      "6f1c2de0-5b7a-4b3e-9af1-2c8d1e0f4a55" =
      some (SignupOutcome.booked,
        [newRec "Stu" "s@my.cuesta.edu" "900222" false "Monday 01/06/25 9:00–9:15 AM"
          "SLO AT Lab" "2" "6f1c2de0-5b7a-4b3e-9af1-2c8d1e0f4a55" "t1"]) ∧
    (newRec "Stu" "s@my.cuesta.edu" "900222" false "Monday 01/06/25 9:00–9:15 AM"
      "SLO AT Lab" "2" "6f1c2de0-5b7a-4b3e-9af1-2c8d1e0f4a55" "t1").groupId ≠ "" ∧
    (newRec "Stu" "s@my.cuesta.edu" "900222" false "Monday 01/06/25 9:00–9:15 AM"
      "SLO AT Lab" "2" "6f1c2de0-5b7a-4b3e-9af1-2c8d1e0f4a55" "t1").dsps = false := by
  decide

/-! ## Parsing the generator's own output (towards C1) -/

theorem isDigit_digitChar (n : Nat) (h : n ≤ 9) : isDigitChar (digitChar n) = true := by
  interval_cases n <;> decide

theorem not_ws_digitChar (n : Nat) (h : n ≤ 9) : isWsChar (digitChar n) = false := by
  interval_cases n <;> decide

theorem digitVal_digitChar (n : Nat) (h : n ≤ 9) : digitVal (digitChar n) = n := by
  interval_cases n <;> decide

theorem alpha_not_ws (c : Char) (h : isAlphaChar c = true) : isWsChar c = false := by
  cases hw : isWsChar c
  · rfl
  · exfalso
    simp only [isWsChar, Bool.or_eq_true, beq_iff_eq] at hw
    rcases hw with ((((rfl | rfl) | rfl) | rfl) | rfl) | rfl <;> simp [isAlphaChar] at h

theorem dropWs_cons (c : Char) (r : List Char) (h : isWsChar c = false) :
    dropWs (c :: r) = c :: r := by
  rw [dropWs, h]
  simp

theorem splitAlpha_exact (xs : List Char) (c : Char) (r : List Char)
    (hxs : xs.all isAlphaChar = true) (hc : isAlphaChar c = false) :
    splitAlpha (xs ++ c :: r) = (xs, c :: r) := by
  induction xs with
  | nil => simp at hxs ⊢; rw [splitAlpha, hc]; simp
  | cons a as ih =>
    simp only [List.all_cons, Bool.and_eq_true] at hxs
    rw [List.cons_append, splitAlpha, hxs.1]
    simp [ih hxs.2]

theorem splitDigits_exact (xs : List Char) (c : Char) (r : List Char)
    (hxs : xs.all isDigitChar = true) (hc : isDigitChar c = false) :
    splitDigits (xs ++ c :: r) = (xs, c :: r) := by
  induction xs with
  | nil => simp at hxs ⊢; rw [splitDigits, hc]; simp
  | cons a as ih =>
    simp only [List.all_cons, Bool.and_eq_true] at hxs
    rw [List.cons_append, splitDigits, hxs.1]
    simp [ih hxs.2]

theorem pad2_digits (n : Nat) : (pad2 n).all isDigitChar = true := by
  simp [pad2, isDigit_digitChar _ (show n / 10 % 10 ≤ 9 by omega),
    isDigit_digitChar _ (show n % 10 ≤ 9 by omega)]

theorem natOfDigits_pad2 (n : Nat) (h : n ≤ 99) : natOfDigits (pad2 n) = n := by
  simp only [natOfDigits, pad2, List.foldl]
  rw [digitVal_digitChar _ (by omega), digitVal_digitChar _ (by omega)]
  omega

theorem digitsRun_pad2 (lo hi n : Nat) (c : Char) (r : List Char)
    (h99 : n ≤ 99) (hlo : lo ≤ 2) (hhi : 2 ≤ hi) (hc : isDigitChar c = false) :
    digitsRun lo hi (pad2 n ++ c :: r) = some (n, 2, c :: r) := by
  unfold digitsRun
  rw [splitDigits_exact _ _ _ (pad2_digits n) hc]
  dsimp only
  rw [if_pos (by simp [pad2]; omega)]
  rw [natOfDigits_pad2 n h99]
  simp [pad2]

theorem digitsRun_one (lo hi n : Nat) (c : Char) (r : List Char)
    (h9 : n ≤ 9) (hlo : lo ≤ 1) (hhi : 1 ≤ hi) (hc : isDigitChar c = false) :
    digitsRun lo hi (digitChar n :: c :: r) = some (n, 1, c :: r) := by
  have hs : digitChar n :: c :: r = [digitChar n] ++ c :: r := by simp
  rw [hs]
  unfold digitsRun
  rw [splitDigits_exact _ _ _ (by simp [isDigit_digitChar n h9]) hc]
  dsimp only
  rw [if_pos (by simp; omega)]
  simp only [natOfDigits, List.foldl, List.length_cons, List.length_nil]
  rw [digitVal_digitChar n h9]
  simp

theorem hour12_ge_one (h : Nat) : 1 ≤ hour12 h := by
  unfold hour12
  split <;> omega

theorem hour12_le_twelve (h : Nat) : hour12 h ≤ 12 := by
  unfold hour12
  split
  · omega
  · have := Nat.mod_lt h (show 0 < 12 by omega)
    omega

theorem dropWs_timeText (t : Time) (x : List Char) :
    dropWs (timeText t ++ x) = timeText t ++ x := by
  unfold timeText
  by_cases hh : hour12 t.hour < 10
  · rw [if_pos hh]
    simp only [List.cons_append, List.append_assoc, List.nil_append]
    exact dropWs_cons _ _ (not_ws_digitChar _ (by omega))
  · rw [if_neg hh]
    simp only [pad2, List.cons_append, List.append_assoc, List.nil_append]
    exact dropWs_cons _ _ (not_ws_digitChar _ (by omega))

theorem timeTok_timeText (t : Time) (c : Char) (r : List Char)
    (hm : t.minute ≤ 59) (hc : isDigitChar c = false) :
    timeTok (timeText t ++ c :: r) = some (hour12 t.hour, t.minute, c :: r) := by
  unfold timeText timeTok
  by_cases hh : hour12 t.hour < 10
  · rw [if_pos hh]
    simp only [List.append_assoc, List.cons_append, List.singleton_append, List.nil_append]
    rw [digitsRun_one 1 2 _ ':' (pad2 t.minute ++ c :: r) (by omega) (by omega) (by omega)
      (by decide)]
    simp only [expectChar, eq_self_iff_true, if_true]
    rw [digitsRun_pad2 2 2 _ c r (by omega) (by omega) (by omega) hc]
  · rw [if_neg hh]
    simp only [List.append_assoc, List.cons_append, List.singleton_append, List.nil_append]
    rw [digitsRun_pad2 1 2 _ ':' (pad2 t.minute ++ c :: r) (hour12_le_twelve t.hour |>.trans
      (by omega)) (by omega) (by omega) (by decide)]
    simp only [expectChar, eq_self_iff_true, if_true]
    rw [digitsRun_pad2 2 2 _ c r (by omega) (by omega) (by omega) hc]

theorem wkname_alpha (n : Nat) :
    (weekdayName n).data.all isAlphaChar = true ∧
    3 ≤ (weekdayName n).data.length ∧ (weekdayName n).data.length ≤ 9 := by
  match n with
  | 0 => decide
  | 1 => decide
  | 2 => decide
  | 3 => decide
  | 4 => decide
  | 5 => decide
  | k + 6 =>
    exact (by decide :
      ("Sunday" : String).data.all isAlphaChar = true ∧
      3 ≤ ("Sunday" : String).data.length ∧ ("Sunday" : String).data.length ≤ 9)

theorem dropWs_name (n : Nat) (r : List Char) :
    dropWs ((weekdayName n).data ++ r) = (weekdayName n).data ++ r := by
  obtain ⟨ha, h3, -⟩ := wkname_alpha n
  cases hd : (weekdayName n).data with
  | nil => rw [hd] at h3; simp at h3
  | cons x xs =>
    rw [hd] at ha
    simp only [List.all_cons, Bool.and_eq_true] at ha
    simp only [List.cons_append]
    exact dropWs_cons _ _ (alpha_not_ws _ ha.1)

theorem dropWs_pad2 (n : Nat) (x : List Char) : dropWs (pad2 n ++ x) = pad2 n ++ x := by
  simp only [pad2, List.cons_append]
  exact dropWs_cons _ _ (not_ws_digitChar _ (by omega))

theorem matchLead_gen (d : Date) (s : Time) (c : Char) (r : List Char)
    (hmo : d.month ≤ 99) (hdy : d.day ≤ 99) (hm : s.minute ≤ 59) (hc : isDigitChar c = false) :
    matchLead (dayKeyChars d ++ ' ' :: timeText s ++ c :: r) =
      some (d.month, d.day, d.year % 100, 2, hour12 s.hour, s.minute, c :: r) := by
  unfold matchLead dayKeyChars
  simp only [List.append_assoc, List.cons_append]
  rw [dropWs_name]
  rw [splitAlpha_exact _ _ _ (wkname_alpha (weekdayOf d)).1 (by decide)]
  dsimp only
  rw [if_pos ⟨(wkname_alpha (weekdayOf d)).2.1, (wkname_alpha (weekdayOf d)).2.2⟩]
  simp only [reqWs, isWsChar]
  rw [if_pos (by decide)]
  rw [dropWs_pad2]
  dsimp only
  rw [digitsRun_pad2 1 2 _ '/' _ hmo (by omega) (by omega) (by decide)]
  dsimp only
  simp only [expectChar, eq_self_iff_true, if_true]
  rw [digitsRun_pad2 1 2 _ '/' _ hdy (by omega) (by omega) (by decide)]
  dsimp only
  rw [if_pos rfl]
  dsimp only
  rw [digitsRun_pad2 2 4 _ ' ' _ (by omega) (by omega) (by omega) (by decide)]
  dsimp only
  rw [if_pos (by decide)]
  rw [dropWs_timeText]
  dsimp only
  rw [timeTok_timeText s c r hm hc]

theorem sepTok_dash (r : List Char) : sepTok ('–' :: r) = some (dropWs r) := by
  unfold sepTok
  rw [dropWs_cons '–' r (by decide)]
  rfl

theorem tailOne_gen (e : Time) (hm : e.minute ≤ 59) :
    tailOne ('–' :: (timeText e ++ ' ' :: ampmChars e.hour)) =
      some (hour12 e.hour, e.minute, some (merOf e.hour)) := by
  unfold tailOne
  rw [sepTok_dash]
  rw [dropWs_timeText]
  dsimp only
  rw [timeTok_timeText e ' ' (ampmChars e.hour) hm (by decide)]
  dsimp only
  unfold merOf ampmChars
  by_cases hh : e.hour < 12
  · rw [if_pos hh, if_pos hh]
    rfl
  · rw [if_neg hh, if_neg hh]
    rfl

theorem matchSlot_gen (d : Date) (s e : Time)
    (hmo : d.month ≤ 99) (hdy : d.day ≤ 99) (hsm : s.minute ≤ 59) (hem : e.minute ≤ 59) :
    matchSlot (generateSlotLabel d s e) =
      some ⟨d.month, d.day, d.year % 100, 2, hour12 s.hour, s.minute,
            hour12 e.hour, e.minute, some (merOf e.hour), some (merOf e.hour)⟩ := by
  unfold matchSlot generateSlotLabel
  dsimp only
  have hl : dayKeyChars d ++ ' ' :: timeText s ++ '–' :: timeText e ++ ' ' :: ampmChars e.hour =
      dayKeyChars d ++ ' ' :: timeText s ++
        ('–' :: (timeText e ++ ' ' :: ampmChars e.hour)) := by
    simp [List.append_assoc]
  rw [hl]
  rw [matchLead_gen d s '–' (timeText e ++ ' ' :: ampmChars e.hour) hmo hdy hsm (by decide)]
  dsimp only
  rw [tailOne_gen e hem]

theorem resolveMer_hour12 (h m : Nat) (hh : h ≤ 23) (hm : m ≤ 59) :
    resolveMer (hour12 h) m (merOf h) = some ⟨h, m⟩ := by
  unfold resolveMer merOf hour12
  by_cases h12 : h < 12
  · rw [if_pos h12]
    by_cases h0 : h % 12 = 0
    · rw [if_pos h0]
      have h0' : h = 0 := by omega
      subst h0'
      rw [if_pos ⟨by omega, by omega, hm⟩]
      dsimp only
      rw [if_pos rfl]
    · rw [if_neg h0]
      have hlt : h % 12 = h := Nat.mod_eq_of_lt h12
      rw [hlt]
      rw [if_pos ⟨by omega, by omega, hm⟩]
      dsimp only
      rw [if_neg (by omega)]
  · rw [if_neg h12]
    by_cases h0 : h % 12 = 0
    · rw [if_pos h0]
      have h12' : h = 12 := by omega
      subst h12'
      rw [if_pos ⟨by omega, by omega, hm⟩]
      dsimp only
      rw [if_pos rfl]
    · rw [if_neg h0]
      have hlt : h % 12 = h - 12 := by omega
      rw [hlt]
      rw [if_pos ⟨by omega, by omega, hm⟩]
      dsimp only
      rw [if_neg (by omega), Nat.sub_add_cancel (Nat.le_of_not_lt h12)]

theorem resolveYear_mod (y : Nat) (h1 : 1969 ≤ y) (h2 : y ≤ 2068) :
    resolveYear (y % 100) 2 = some y := by
  unfold resolveYear
  rw [if_pos rfl]
  by_cases hw : y % 100 ≤ 68
  · rw [if_pos hw]
    congr 1
    omega
  · rw [if_neg hw]
    congr 1
    omega

/-- C1 (amended): for every valid date in the two-digit-year window and
    every pair of in-range times with start earlier than end on the same
    day whose hours share one meridiem, parsing the generated label
    returns exactly the original wall-clock start and end. (When the
    interval crosses noon the single trailing PM marker is applied to
    both times and the round trip fails: see the counterexample.) -/
theorem c1_roundtrip_same_meridiem :
    ∀ (d : Date) (s e : Time),
      ValidDate d → 1969 ≤ d.year → d.year ≤ 2068 →
      s.hour ≤ 23 → s.minute ≤ 59 → e.hour ≤ 23 → e.minute ≤ 59 →
      s.toMin < e.toMin → merOf s.hour = merOf e.hour →
      parseSlotRange (generateSlotLabel d s e) = some (⟨d, s⟩, ⟨d, e⟩) := by
  intro d s e hvd hy1 hy2 hsh hsm heh hem hlt hmer
  unfold parseSlotRange
  rw [matchSlot_gen d s e (by obtain ⟨-, -, -, h, -⟩ := hvd; omega)
    (by
      obtain ⟨-, -, -, -, -, h⟩ := hvd
      have : daysInMonth d.year d.month ≤ 31 := by
        unfold daysInMonth
        split
        · split <;> omega
        · split <;> omega
      omega)
    hsm hem]
  dsimp only
  rw [resolveYear_mod d.year hy1 hy2]
  dsimp only
  have hd : (⟨d.year, d.month, d.day⟩ : Date) = d := rfl
  rw [hd, if_pos hvd]
  have hs : resolveTime (hour12 s.hour) s.minute (some (merOf e.hour)) = some s := by
    rw [← hmer]
    show resolveMer (hour12 s.hour) s.minute (merOf s.hour) = some s
    rw [resolveMer_hour12 s.hour s.minute hsh hsm]
  have he : resolveTime (hour12 e.hour) e.minute (some (merOf e.hour)) = some e := by
    show resolveMer (hour12 e.hour) e.minute (merOf e.hour) = some e
    rw [resolveMer_hour12 e.hour e.minute heh hem]
  rw [hs, he]
  dsimp only
  rw [if_neg (by omega)]

/-- Witness for C1: a same-meridiem slot round-trips. -/
theorem c1_witness :
    parseSlotRange (generateSlotLabel ⟨2025, 1, 6⟩ ⟨9, 0⟩ ⟨9, 15⟩) =
      some (⟨⟨2025, 1, 6⟩, ⟨9, 0⟩⟩, ⟨⟨2025, 1, 6⟩, ⟨9, 15⟩⟩) :=
  c1_roundtrip_same_meridiem ⟨2025, 1, 6⟩ ⟨9, 0⟩ ⟨9, 15⟩ (by decide) (by decide) (by decide)
    (by decide) (by decide) (by decide) (by decide) (by decide) (by decide)

/-- C1 (counterexample to the claim as stated): the noon-crossing slot
    11:45–12:00 generates "Monday 01/06/25 11:45–12:00 PM"; the single
    trailing PM is applied to both times, so parsing returns 23:45 and —
    after the wrap heuristic — 00:00, not the original 11:45 and 12:00. -/
theorem c1_counterexample :
    generateSlotLabel ⟨2025, 1, 6⟩ ⟨11, 45⟩ ⟨12, 0⟩ = "Monday 01/06/25 11:45–12:00 PM" ∧
    parseSlotRange (generateSlotLabel ⟨2025, 1, 6⟩ ⟨11, 45⟩ ⟨12, 0⟩) =
      some (⟨⟨2025, 1, 6⟩, ⟨23, 45⟩⟩, ⟨⟨2025, 1, 6⟩, ⟨0, 0⟩⟩) ∧
    parseSlotRange (generateSlotLabel ⟨2025, 1, 6⟩ ⟨11, 45⟩ ⟨12, 0⟩) ≠
      some (⟨⟨2025, 1, 6⟩, ⟨11, 45⟩⟩, ⟨⟨2025, 1, 6⟩, ⟨12, 0⟩⟩) := by
  decide

/-! ## C5: where end is (and is not) after start -/

theorem resolveTime_bounds (h m : Nat) (mer : Option Meridiem) (t : Time)
    (hr : resolveTime h m mer = some t) : t.hour ≤ 23 ∧ t.minute ≤ 59 := by
  cases mer with
  | none =>
    simp only [resolveTime] at hr
    unfold resolveNoMer at hr
    by_cases h1 : 1 ≤ h ∧ h ≤ 12 ∧ m ≤ 59
    · rw [if_pos h1] at hr
      injection hr with hr
      subst hr
      refine ⟨?_, h1.2.2⟩
      dsimp only
      split <;> omega
    · rw [if_neg h1] at hr
      by_cases h2 : h ≤ 23 ∧ m ≤ 59
      · rw [if_pos h2] at hr
        injection hr with hr
        subst hr
        exact ⟨h2.1, h2.2⟩
      · rw [if_neg h2] at hr
        simp at hr
  | some mm =>
    simp only [resolveTime] at hr
    unfold resolveMer at hr
    by_cases h1 : 1 ≤ h ∧ h ≤ 12 ∧ m ≤ 59
    · rw [if_pos h1] at hr
      injection hr with hr
      subst hr
      refine ⟨?_, h1.2.2⟩
      cases mm <;> dsimp only <;> split <;> omega
    · rw [if_neg h1] at hr
      simp at hr

/-- C5 (amended): for every label accepted by parse_slot_range, the
    returned start is the initially resolved start; when the initially
    resolved end precedes it the heuristic replaces the end's hour with
    (hour + 12) mod 24; and the returned end is strictly later than the
    returned start exactly when the initially resolved end was already
    strictly later, or the heuristic fired on an end hour below 12 and
    the 12-hour shift lands strictly past the start. (In particular
    end > start can fail: see the counterexample.) -/
theorem c5_end_after_start :
    ∀ (s : String) (a b : DT), parseSlotRange s = some (a, b) →
      ∃ (c : Capture) (st en : Time),
        matchSlot s = some c ∧
        resolveTime c.startH c.startM c.ampmStart = some st ∧
        resolveTime c.endH c.endM c.ampmEnd = some en ∧
        a.time = st ∧
        b.time = (if en.toMin < st.toMin then (⟨(en.hour + 12) % 24, en.minute⟩ : Time) else en) ∧
        (a.time.toMin < b.time.toMin ↔
          (st.toMin < en.toMin ∨
            (en.toMin < st.toMin ∧ en.hour < 12 ∧ st.toMin < en.toMin + 720))) := by
  intro s a b h
  unfold parseSlotRange at h
  cases hm : matchSlot s with
  | none => rw [hm] at h; simp at h
  | some c =>
    rw [hm] at h
    dsimp only at h
    cases hy : resolveYear c.yearRaw c.yearLen with
    | none => rw [hy] at h; simp at h
    | some y =>
      rw [hy] at h
      dsimp only at h
      by_cases hv : ValidDate ⟨y, c.month, c.mday⟩
      · rw [if_pos hv] at h
        cases hst : resolveTime c.startH c.startM c.ampmStart with
        | none => rw [hst] at h; simp at h
        | some st =>
          cases hen : resolveTime c.endH c.endM c.ampmEnd with
          | none => rw [hst, hen] at h; simp at h
          | some en =>
            rw [hst, hen] at h
            dsimp only at h
            injection h with h1
            injection h1 with ha hb
            obtain ⟨hsb1, hsb2⟩ := resolveTime_bounds _ _ _ _ hst
            obtain ⟨heb1, heb2⟩ := resolveTime_bounds _ _ _ _ hen
            refine ⟨c, st, en, rfl, hst, hen, by rw [← ha], by rw [← hb], ?_⟩
            rw [← ha, ← hb]
            show st.toMin <
              (if en.toMin < st.toMin then (⟨(en.hour + 12) % 24, en.minute⟩ : Time)
               else en).toMin ↔ _
            by_cases hw : en.toMin < st.toMin
            · rw [if_pos hw]
              unfold Time.toMin at hw ⊢
              dsimp only
              omega
            · rw [if_neg hw]
              unfold Time.toMin at hw ⊢
              omega
      · rw [if_neg hv] at h
        simp at h

/-- Witness for C5: the characterization instantiated at an ordinary
    morning slot label. -/
theorem c5_witness :
    ∃ (c : Capture) (st en : Time),
      matchSlot "Monday 01/06/25 9:00–9:15 AM" = some c ∧
      resolveTime c.startH c.startM c.ampmStart = some st ∧
      resolveTime c.endH c.endM c.ampmEnd = some en ∧
      (⟨⟨2025, 1, 6⟩, ⟨9, 0⟩⟩ : DT).time = st ∧
      (⟨⟨2025, 1, 6⟩, ⟨9, 15⟩⟩ : DT).time =
        (if en.toMin < st.toMin then (⟨(en.hour + 12) % 24, en.minute⟩ : Time) else en) ∧
      ((⟨⟨2025, 1, 6⟩, ⟨9, 0⟩⟩ : DT).time.toMin < (⟨⟨2025, 1, 6⟩, ⟨9, 15⟩⟩ : DT).time.toMin ↔
        (st.toMin < en.toMin ∨
          (en.toMin < st.toMin ∧ en.hour < 12 ∧ st.toMin < en.toMin + 720))) :=
  c5_end_after_start "Monday 01/06/25 9:00–9:15 AM"
    ⟨⟨2025, 1, 6⟩, ⟨9, 0⟩⟩ ⟨⟨2025, 1, 6⟩, ⟨9, 15⟩⟩ (by decide)

/-- C5 (counterexample to the claim as stated): the accepted label
    "Monday 01/06/25 11:45–12:00 PM" parses to start 23:45 and end 00:00 —
    even after the heuristic the returned end is not later than the
    returned start. -/
theorem c5_counterexample :
    parseSlotRange "Monday 01/06/25 11:45–12:00 PM" =
      some (⟨⟨2025, 1, 6⟩, ⟨23, 45⟩⟩, ⟨⟨2025, 1, 6⟩, ⟨0, 0⟩⟩) ∧
    ¬ (Time.toMin ⟨23, 45⟩ < Time.toMin ⟨0, 0⟩) := by
  decide

/-! ## C10: times without a meridiem marker -/

/-- C10 (amended): in the initial (pre-heuristic) interpretation of a
    time with no meridiem marker, an hour from 1 to 11 is taken literally,
    hour 12 becomes 0 (strptime's 12-hour clock treats a bare 12 as
    midnight), hours 0 and 13–23 fall back to the 24-hour reading, hours
    above 23 fail; and the start datetime returned by parse_slot_range is
    always exactly this initial interpretation (only the end can be moved
    by the day-crossing heuristic). -/
theorem c10_no_meridiem_resolution :
    (∀ (h m : Nat), 1 ≤ h → h ≤ 11 → m ≤ 59 → resolveTime h m none = some ⟨h, m⟩) ∧
    (∀ (m : Nat), m ≤ 59 → resolveTime 12 m none = some ⟨0, m⟩) ∧
    (∀ (h m : Nat), (h = 0 ∨ (13 ≤ h ∧ h ≤ 23)) → m ≤ 59 → resolveTime h m none = some ⟨h, m⟩) ∧
    (∀ (h m : Nat), 24 ≤ h → resolveTime h m none = none) ∧
    (∀ (s : String) (a b : DT) (c : Capture), parseSlotRange s = some (a, b) →
      matchSlot s = some c → resolveTime c.startH c.startM c.ampmStart = some a.time) := by
  refine ⟨?_, ?_, ?_, ?_, ?_⟩
  · intro h m h1 h2 hm
    simp only [resolveTime]
    unfold resolveNoMer
    rw [if_pos ⟨h1, by omega, hm⟩]
    rw [if_neg (by omega)]
  · intro m hm
    simp only [resolveTime]
    unfold resolveNoMer
    rw [if_pos ⟨by omega, by omega, hm⟩]
    rw [if_pos rfl]
  · intro h m hh hm
    simp only [resolveTime]
    unfold resolveNoMer
    rw [if_neg (by omega)]
    rw [if_pos ⟨by omega, hm⟩]
  · intro h m hh
    simp only [resolveTime]
    unfold resolveNoMer
    rw [if_neg (by omega), if_neg (by omega)]
  · intro s a b c h hm
    unfold parseSlotRange at h
    rw [hm] at h
    dsimp only at h
    cases hy : resolveYear c.yearRaw c.yearLen with
    | none => rw [hy] at h; simp at h
    | some y =>
      rw [hy] at h
      dsimp only at h
      by_cases hv : ValidDate ⟨y, c.month, c.mday⟩
      · rw [if_pos hv] at h
        cases hst : resolveTime c.startH c.startM c.ampmStart with
        | none => rw [hst] at h; simp at h
        | some st =>
          cases hen : resolveTime c.endH c.endM c.ampmEnd with
          | none => rw [hst, hen] at h; simp at h
          | some en =>
            rw [hst, hen] at h
            dsimp only at h
            injection h with h1
            injection h1 with ha hb
            rw [← ha]
      · rw [if_neg hv] at h
        simp at h

/-- Witness for C10: concrete no-meridiem resolutions and the start
    pass-through on a dash-separated markerless label. -/
theorem c10_witness :
    resolveTime 9 0 none = some ⟨9, 0⟩ ∧
    resolveTime 12 30 none = some ⟨0, 30⟩ ∧
    resolveTime 0 30 none = some ⟨0, 30⟩ ∧
    resolveTime 13 5 none = some ⟨13, 5⟩ ∧
    resolveTime 24 0 none = none ∧
    resolveTime 9 0 none =
      some (⟨⟨2024, 5, 6⟩, ⟨9, 0⟩⟩ : DT).time :=
  ⟨c10_no_meridiem_resolution.1 9 0 (by decide) (by decide) (by decide),
   c10_no_meridiem_resolution.2.1 30 (by decide),
   c10_no_meridiem_resolution.2.2.1 0 30 (Or.inl rfl) (by decide),
   c10_no_meridiem_resolution.2.2.1 13 5 (Or.inr (by decide)) (by decide),
   c10_no_meridiem_resolution.2.2.2.1 24 0 (by decide),
   c10_no_meridiem_resolution.2.2.2.2 "Friday 05/06/24 9:00—9:15"
     ⟨⟨2024, 5, 6⟩, ⟨9, 0⟩⟩ ⟨⟨2024, 5, 6⟩, ⟨9, 15⟩⟩
     ⟨5, 6, 24, 2, 9, 0, 9, 15, none, none⟩ (by decide) (by decide)⟩

/-- C10 (counterexample to the claim as stated): the markerless label
    "Monday 01/06/25 12:00–12:15" parses its start "12:00" to midnight
    (00:00), not literally to clock hour 12. -/
theorem c10_counterexample :
    parseSlotRange "Monday 01/06/25 12:00–12:15" =
      some (⟨⟨2025, 1, 6⟩, ⟨0, 0⟩⟩, ⟨⟨2025, 1, 6⟩, ⟨0, 15⟩⟩) ∧
    ((⟨0, 0⟩ : Time) ≠ ⟨12, 0⟩) := by
  decide
